import Mathlib

/-
  Verification development for the curriculum-gen timetabling repository.

  Shallow embedding of src/timetable/structures.py, src/timetable/solver.py
  and src/timetable/validator.py.  Python machine state is made explicit:
  the global random module becomes a threaded Rng value, exceptions become
  Except PyErr, Python lists become Lean lists.  Functions are translated
  from the source; the few members that the repository references but whose
  bodies are not in src (Timetable.from_faculty, Timetable.clone,
  course_conflict_weights, Validator.total_violation_cost and
  total_soft_cost) are modelled from the spec and marked as such.
-/

/-- Python exception kinds that the embedded code can raise. -/
inductive PyErr
  | valueError
  | indexError
  | keyError
deriving DecidableEq, Repr

deriving instance DecidableEq for Except

/-- The exception (if any) an embedded computation raised. -/
def errOf {e a : Type} : Except e a → Option e
  | .error x => some x
  | .ok _ => none

/-- Exact non-negative rational value, the idealisation used for the two
float quantities of the solver (the random() draws in [0, 1) and
slice_ratio). -/
structure Frac where
  num : Nat
  den : Nat
deriving DecidableEq, Repr

/-- Comparison of two such values by cross multiplication. -/
def Frac.lt (a b : Frac) : Bool :=
  a.num * b.den < b.num * a.den

/-- int(n * f): the integer part of a natural number scaled by a ratio. -/
def Frac.scale (f : Frac) (n : Nat) : Nat :=
  n * f.num / f.den

/-- Model of the Python random module state: two oracle streams (one for
discrete draws, one for random()) and positions in them.  The map from a
seed to a stream is kept abstract as a parameter of the Solver. -/
structure Rng where
  ints : Nat → Nat
  floats : Nat → Frac
  pos : Nat
  fpos : Nat

def Rng.nextInt (r : Rng) : Nat × Rng :=
  (r.ints r.pos, { r with pos := r.pos + 1 })

def Rng.nextFloat (r : Rng) : Frac × Rng :=
  (r.floats r.fpos, { r with fpos := r.fpos + 1 })

/-- random.choice: IndexError on an empty sequence, else an element picked
by the drawn index. -/
def randomChoice {α : Type} (l : List α) (r : Rng) : Except PyErr (α × Rng) :=
  if h : l.length = 0 then .error .indexError
  else
    let (i, r2) := r.nextInt
    .ok (l.get ⟨i % l.length, Nat.mod_lt _ (Nat.pos_of_ne_zero h)⟩, r2)

/-- random.randrange(n): ValueError for an empty range. -/
def randrange (n : Nat) (r : Rng) : Except PyErr (Nat × Rng) :=
  if n = 0 then .error .valueError
  else
    let (i, r2) := r.nextInt
    .ok (i % n, r2)

/-- sys.maxsize on a 64-bit platform. -/
def maxsize : Nat := 9223372036854775807

/-- In-place update of one list position (Python item assignment on a
nested list); out of range leaves the list unchanged (unreachable in the
translated code paths, which index within the allocated grids). -/
def listModify {α : Type} (f : α → α) : Nat → List α → List α
  | _, [] => []
  | 0, a :: as => f a :: as
  | n + 1, a :: as => a :: listModify f n as

/-- Python dict insertion: overwriting a present key keeps its position,
a new key goes to the end. -/
def dictInsert {α β : Type} [DecidableEq α] (d : List (α × β)) (k : α) (v : β) : List (α × β) :=
  if d.any (fun kv => kv.1 == k) then
    d.map (fun kv => if kv.1 = k then (k, v) else kv)
  else
    d ++ [(k, v)]

def dictLookup {α β : Type} [DecidableEq α] (d : List (α × β)) (k : α) : Option β :=
  (d.find? (fun kv => kv.1 == k)).map (fun kv => kv.2)

/-- Reading a cell of a nested list, total version (used where the source
indexes inside the allocated grid). -/
def getD2 (m : List (List Nat)) (i j : Nat) : Nat :=
  (m.getD i []).getD j 0

/-- Reading a cell of a nested list, partial version: IndexError out of
range (used where the source can actually index out of range). -/
def getE2 (m : List (List Nat)) (i j : Nat) : Except PyErr Nat :=
  match m.get? i with
  | none => .error .indexError
  | some row =>
    match row.get? j with
    | none => .error .indexError
    | some v => .ok v

/-- Python list indexing with IndexError. -/
def getE {α : Type} (l : List α) (i : Nat) : Except PyErr α :=
  match l.get? i with
  | none => .error .indexError
  | some a => .ok a

def zeros2 (rows cols : Nat) : List (List Nat) :=
  List.replicate rows (List.replicate cols 0)

/-- structures.Course. -/
structure Course where
  name : String
  teacher : String
  students : Nat
  lectures : Nat
  minWorkingDays : Nat
deriving DecidableEq, Repr, Inhabited

/-- structures.Room. -/
structure Room where
  name : String
  capacity : Nat
deriving DecidableEq, Repr

/-- structures.Curriculum: members are course names. -/
structure Curriculum where
  name : String
  members : List String
deriving DecidableEq, Repr

/-- structures.Faculty.  room_vect and room_names have a None sentinel at
index 0 (teaching in room 0 means not teaching). -/
structure Faculty where
  name : String
  rooms : Nat
  courses : Nat
  periods : Nat
  periodsPerDay : Nat
  curricula : Nat
  courseVect : List Course
  roomVect : List (Option Room)
  curriculaVect : List Curriculum
  availability : List (List Bool)
  conflict : List (List Bool)
  courseNames : List String
  roomNames : List (Option String)
deriving DecidableEq, Repr

def MIN_WORKING_DAYS_COST : Nat := 5
def CURRICULUM_COMPACTNESS_COST : Nat := 2
def ROOM_STABILITY_COST : Nat := 1

/-- Faculty.days property: periods // periods_per_day. -/
def Faculty.days (f : Faculty) : Nat := f.periods / f.periodsPerDay

/-- structures.Timetable: grid of room numbers (0 = unassigned) plus the
five redundant caches. -/
structure Timetable where
  faculty : Faculty
  warnings : Nat
  timetable : List (List Nat)
  roomLectures : List (List Nat)
  curriculumPeriodLectures : List (List Nat)
  courseDailyLectures : List (List Nat)
  workingDays : List Nat
  usedRooms : List (List Nat)
deriving DecidableEq, Repr

/-- timetable[c][p] (reads inside the allocated grid). -/
def cell (t : Timetable) (c p : Nat) : Nat :=
  getD2 t.timetable c p

/-- timetable[c][p] = v. -/
def setCell (t : Timetable) (c p v : Nat) : Timetable :=
  { t with timetable := listModify (fun row => row.set p v) c t.timetable }

def availAt (fac : Faculty) (c p : Nat) : Bool :=
  (fac.availability.getD c []).getD p true

def conflictRow (fac : Faculty) (c : Nat) : List Bool :=
  fac.conflict.getD c []

def conflictAt (fac : Faculty) (c1 c2 : Nat) : Bool :=
  (fac.conflict.getD c1 []).getD c2 false

/-- self.room_lectures[room][p] += 1 and friends. -/
def bumpCell (m : List (List Nat)) (i j : Nat) : List (List Nat) :=
  listModify (fun row => row.set j (row.getD j 0 + 1)) i m

/-- First loop of Timetable.update_redundant_data: room_lectures and
used_rooms.  Note the source only increments, it never resets. -/
def urdLoop1 (t : Timetable) : Timetable :=
  (List.range t.faculty.courses).foldl (fun acc c =>
    (List.range t.faculty.periods).foldl (fun acc p =>
      let room := cell acc c p
      if room == 0 then acc
      else
        let acc := { acc with roomLectures := bumpCell acc.roomLectures room p }
        { acc with usedRooms :=
            listModify (fun rs => if room ∈ rs then rs else rs ++ [room]) c acc.usedRooms }) acc) t

/-- Second loop of update_redundant_data: curriculum_period_lectures. -/
def urdLoop2 (t : Timetable) : Timetable :=
  t.faculty.courseVect.enum.foldl (fun acc cic =>
    t.faculty.curriculaVect.enum.foldl (fun acc gig =>
      if cic.2.name ∈ gig.2.members then
        (List.range t.faculty.periods).foldl (fun acc p =>
          if cell acc cic.1 p == 0 then acc
          else { acc with curriculumPeriodLectures := bumpCell acc.curriculumPeriodLectures gig.1 p }) acc
      else acc) acc) t

/-- Third loop of update_redundant_data: course_daily_lectures and
working_days (the working_days test reads the just-updated daily counts). -/
def urdLoop3 (t : Timetable) : Timetable :=
  (List.range t.faculty.courses).foldl (fun acc c =>
    (List.range t.faculty.days).foldl (fun acc d =>
      let acc := (List.range t.faculty.periodsPerDay).foldl (fun acc q =>
        let p := d * t.faculty.periodsPerDay + q
        if cell acc c p == 0 then acc
        else { acc with courseDailyLectures := bumpCell acc.courseDailyLectures c d }) acc
      if (acc.courseDailyLectures.getD c []).getD d 0 > 0 then
        { acc with workingDays := acc.workingDays.set c (acc.workingDays.getD c 0 + 1) }
      else acc) acc) t

/-- Timetable.update_redundant_data, translated from the source: the three
passes increment the caches from the grid without zeroing them first. -/
def updateRedundantData (t : Timetable) : Timetable :=
  urdLoop3 (urdLoop2 (urdLoop1 t))

/-- Modelled from the spec: Timetable.from_faculty is referenced by
Solver.init but its body is not under src.  Spec 4.2: grid filled with 0,
caches zeroed, used_rooms empty. -/
def Timetable.fromFaculty (fac : Faculty) : Timetable :=
  { faculty := fac
    warnings := 0
    timetable := zeros2 fac.courses fac.periods
    roomLectures := zeros2 (fac.rooms + 1) fac.periods
    curriculumPeriodLectures := zeros2 fac.curricula fac.periods
    courseDailyLectures := zeros2 fac.courses fac.days
    workingDays := List.replicate fac.courses 0
    usedRooms := List.replicate fac.courses [] }

/-- Modelled from the spec: Timetable.clone is referenced by
Solver.iterate but its body is not under src.  Spec 4.2: identical grid,
caches zeroed. -/
def Timetable.clone (t : Timetable) : Timetable :=
  { t with
    roomLectures := zeros2 (t.faculty.rooms + 1) t.faculty.periods
    curriculumPeriodLectures := zeros2 t.faculty.curricula t.faculty.periods
    courseDailyLectures := zeros2 t.faculty.courses t.faculty.days
    workingDays := List.replicate t.faculty.courses 0
    usedRooms := List.replicate t.faculty.courses [] }

/-- One already-split line of a solution stream:
course_name room_name day timeslot. -/
structure SolutionLine where
  course : String
  room : String
  day : Nat
  timeslot : Nat
deriving DecidableEq, Repr

/-- Per-line body of Timetable.from_stream, translated from the source:
note the day and timeslot checks use strict greater-than, and the
occupancy test reads tt[c][p] before any bound check on p. -/
def fromStreamStep (fac : Faculty) (acc : List (List Nat) × Nat) (ln : SolutionLine) :
    Except PyErr (List (List Nat) × Nat) :=
  let (tt, warnings) := acc
  match fac.courseNames.findIdx? (fun s => s == ln.course) with
  | none => .ok (tt, warnings + 1)
  | some c =>
    match fac.roomNames.findIdx? (fun s => s == some ln.room) with
    | none => .ok (tt, warnings + 1)
    | some r =>
      if ln.day > fac.days then .ok (tt, warnings + 1)
      else if ln.timeslot > fac.periodsPerDay then .ok (tt, warnings + 1)
      else
        let p := ln.day * fac.periodsPerDay + ln.timeslot
        match (tt.get? c).bind (fun row => row.get? p) with
        | none => .error .indexError
        | some v =>
          if v ≠ 0 then .ok (tt, warnings + 1)
          else .ok (listModify (fun row => row.set p r) c tt, warnings)

/-- Timetable.from_stream: allocate the grid and caches, process the
lines, then update_redundant_data. -/
def Timetable.fromStream (fac : Faculty) (lines : List SolutionLine) : Except PyErr Timetable :=
  match lines.foldlM (fromStreamStep fac) (zeros2 fac.courses fac.periods, 0) with
  | .error e => .error e
  | .ok (tt, warnings) =>
    .ok (updateRedundantData
      { faculty := fac
        warnings := warnings
        timetable := tt
        roomLectures := zeros2 (fac.rooms + 1) fac.periods
        curriculumPeriodLectures := zeros2 fac.curricula fac.periods
        courseDailyLectures := zeros2 fac.courses fac.days
        workingDays := List.replicate fac.courses 0
        usedRooms := List.replicate fac.courses [] })

/-- Validator.costs_on_lectures. -/
def costsOnLectures (fac : Faculty) (t : Timetable) : Nat :=
  (List.range fac.courses).foldl (fun cost c =>
    let lectures := (List.range fac.periods).countP (fun p => cell t c p != 0)
    let required := (fac.courseVect.getD c default).lectures
    if lectures < required then cost + (required - lectures)
    else if lectures > required then cost + (lectures - required)
    else cost) 0

/-- Validator.costs_on_conflicts. -/
def costsOnConflicts (fac : Faculty) (t : Timetable) : Nat :=
  (List.range fac.courses).foldl (fun cost c1 =>
    (List.range fac.courses).foldl (fun cost c2 =>
      if c1 < c2 ∧ conflictAt fac c1 c2 then
        cost + (List.range fac.periods).countP (fun p => cell t c1 p != 0 && cell t c2 p != 0)
      else cost) cost) 0

/-- Validator.costs_on_availability. -/
def costsOnAvailability (fac : Faculty) (t : Timetable) : Nat :=
  (List.range fac.courses).foldl (fun cost c =>
    cost + (List.range fac.periods).countP (fun p => cell t c p != 0 && !availAt fac c p)) 0

/-- Validator.costs_on_room_occupation. -/
def costsOnRoomOccupation (fac : Faculty) (t : Timetable) : Nat :=
  (List.range fac.periods).foldl (fun cost p =>
    (List.range (fac.rooms + 1)).foldl (fun cost r =>
      if getD2 t.roomLectures r p > 1 then cost + (getD2 t.roomLectures r p - 1)
      else cost) cost) 0

/-- Validator.costs_on_room_capacity. -/
def costsOnRoomCapacity (fac : Faculty) (t : Timetable) : Nat :=
  (List.range fac.courses).foldl (fun cost c =>
    (List.range fac.periods).foldl (fun cost p =>
      let r := cell t c p
      if r ≠ 0 then
        match fac.roomVect.getD r none with
        | some room =>
          let students := (fac.courseVect.getD c default).students
          if room.capacity < students then cost + (students - room.capacity) else cost
        | none => cost
      else cost) cost) 0

/-- Validator.costs_on_min_working_days. -/
def costsOnMinWorkingDays (fac : Faculty) (t : Timetable) : Nat :=
  (List.range fac.courses).foldl (fun cost c =>
    let wd := t.workingDays.getD c 0
    let m := (fac.courseVect.getD c default).minWorkingDays
    if wd < m then cost + (m - wd) else cost) 0

/-- Validator.costs_on_curriculum_compactness, translated from the source.
The neighbour reads curriculum_period_lectures[g][p+1] and [g][p-1] are
Python list indexing and can raise IndexError (p+1 reaches the list end
when periods_per_day is 1), so the result is an Except. -/
def costsOnCurriculumCompactness (fac : Faculty) (t : Timetable) : Except PyErr Nat :=
  let ppd := fac.periodsPerDay
  (List.range fac.curricula).foldlM (fun cost g =>
    (List.range fac.periods).foldlM (fun cost p =>
      let cur := getD2 t.curriculumPeriodLectures g p
      if cur == 0 then .ok cost
      else if p % ppd == 0 then
        match getE2 t.curriculumPeriodLectures g (p + 1) with
        | .error e => .error e
        | .ok nxt => .ok (if nxt == 0 then cost + cur else cost)
      else if (p + 1) % ppd == 0 then
        match getE2 t.curriculumPeriodLectures g (p - 1) with
        | .error e => .error e
        | .ok prev => .ok (if prev == 0 then cost + cur else cost)
      else
        match getE2 t.curriculumPeriodLectures g (p + 1) with
        | .error e => .error e
        | .ok nxt =>
          if nxt != 0 then .ok cost
          else
            match getE2 t.curriculumPeriodLectures g (p - 1) with
            | .error e => .error e
            | .ok prev => .ok (if prev == 0 then cost + cur else cost)) cost) 0

/-- Validator.costs_on_room_stability. -/
def costsOnRoomStability (fac : Faculty) (t : Timetable) : Nat :=
  (List.range fac.courses).foldl (fun cost c =>
    let rooms := (t.usedRooms.getD c []).length
    if rooms > 1 then cost + (rooms - 1) else cost) 0

/-- Modelled from the spec: Validator.total_violation_cost is referenced
by Solver.evaluate and the tests but its body is not under src.
Spec 4.3: T1 + T2 + T3 + T4. -/
def totalViolationCost (fac : Faculty) (t : Timetable) : Nat :=
  costsOnLectures fac t + costsOnConflicts fac t + costsOnAvailability fac t +
    costsOnRoomOccupation fac t

/-- Modelled from the spec: Validator.total_soft_cost is referenced by
Solver.evaluate and the tests but its body is not under src.
Spec 4.3: T5 + T6 * 5 + T7 * 2 + T8 * 1. -/
def totalSoftCost (fac : Faculty) (t : Timetable) : Except PyErr Nat :=
  match costsOnCurriculumCompactness fac t with
  | .error e => .error e
  | .ok cc =>
    .ok (costsOnRoomCapacity fac t + costsOnMinWorkingDays fac t * MIN_WORKING_DAYS_COST +
      cc * CURRICULUM_COMPACTNESS_COST + costsOnRoomStability fac t * ROOM_STABILITY_COST)

/-- The six names declared in the Mutation Enum of solver.py. -/
inductive MutationName
  | change_room
  | change_period
  | change_both
  | swap_room
  | swap_period
  | swap_both
deriving DecidableEq, Repr

/-- The string value attached to each name in the source Enum
declaration.  change_both repeats the string of change_period, and
swap_both repeats the string of swap_period. -/
def mutationValue : MutationName → String
  | .change_room => "change_room"
  | .change_period => "change_period"
  | .change_both => "change_period"
  | .swap_room => "swap_room"
  | .swap_period => "swap_period"
  | .swap_both => "swap_period"

/-- Declaration order of the Enum names. -/
def mutationDeclOrder : List MutationName :=
  [.change_room, .change_period, .change_both, .swap_room, .swap_period, .swap_both]

/-- Python Enum semantics: a name whose value repeats an earlier value is
an alias for the earlier member, so the member an expression such as
Mutation.change_both denotes is the first declared name with that value. -/
def mutationMember (m : MutationName) : MutationName :=
  (mutationDeclOrder.find? (fun n => mutationValue n == mutationValue m)).getD m

/-- The key-value pairs written in the Solver.mutation_chances dict
literal, in source order. -/
def mutationChancesInserts : List (MutationName × Nat) :=
  [(.change_room, 4), (.change_period, 4), (.change_both, 2),
   (.swap_room, 2), (.swap_period, 2), (.swap_both, 1)]

/-- Solver.mutation_chances, the dict the literal actually builds: keys
are Enum members, so aliased names collapse onto one key. -/
def mutationChances : List (MutationName × Nat) :=
  mutationChancesInserts.foldl (fun d kv => dictInsert d (mutationMember kv.1) kv.2) []

/-- Solver.mutation_count_chances. -/
def mutationCountChances : List (Nat × Nat) :=
  dictInsert [] 1 1

/-- Tags for the six mutate_* methods of Solver, used to observe which
method the dispatch dict in Solver.iterate maps a member to. -/
inductive MutOp
  | change_room
  | change_period
  | change_both
  | swap_room
  | swap_period
  | swap_both
deriving DecidableEq, Repr

/-- The key-value pairs written in the dispatch dict literal inside
Solver.iterate, in source order. -/
def mutateTableInserts : List (MutationName × MutOp) :=
  [(.change_room, .change_room), (.change_period, .change_period),
   (.change_both, .change_both), (.swap_room, .swap_room),
   (.swap_period, .swap_period), (.swap_both, .swap_both)]

/-- The dispatch dict Solver.iterate actually builds: aliased keys are
overwritten in place, so four keys remain. -/
def mutateTable : List (MutationName × MutOp) :=
  mutateTableInserts.foldl (fun d kv => dictInsert d (mutationMember kv.1) kv.2) []

/-- get_random_option: expand the chances dict into a list with each key
repeated by its weight, then random.choice from it. -/
def expandChances {α : Type} (d : List (α × Nat)) : List α :=
  (d.map (fun kv => List.replicate kv.2 kv.1)).flatten

def getRandomOption {α : Type} (d : List (α × Nat)) (rng : Rng) : Except PyErr (α × Rng) :=
  randomChoice (expandChances d) rng

/-- The Solver dataclass.  seedFn models random.seed: the map from a seed
to the resulting pseudo-random stream, kept abstract. -/
structure Solver where
  faculty : Faculty
  violationCost : Nat
  seed : Nat
  shots : Nat
  iterations : Nat
  slices : Nat
  sliceFrac : Frac
  maxConsecutiveRejects : Nat
  sortCourses : Bool
  repeatSlicedResults : Bool
  seedFn : Nat → Rng

/-- Stage 1 and 2 of the get_free_period cascade: all periods minus the
ones where the course already takes place. -/
def samePossiblePeriods (fac : Faculty) (t : Timetable) (c : Nat) : List Nat :=
  (List.range fac.periods).filter (fun p => cell t c p == 0)

/-- Minus from_p when passed. -/
def fromPossiblePeriods (fac : Faculty) (t : Timetable) (c : Nat) (fromP : Option Nat) : List Nat :=
  match fromP with
  | some q => (samePossiblePeriods fac t c).filter (fun p => p != q)
  | none => samePossiblePeriods fac t c

/-- Stage 3: minus the forbidden periods. -/
def availablePeriods (fac : Faculty) (t : Timetable) (c : Nat) (fromP : Option Nat) : List Nat :=
  (fromPossiblePeriods fac t c fromP).filter (fun p => availAt fac c p)

/-- Stage 4 as the source actually computes it: the loop variable ranges
over the booleans of the row conflict[c], and each boolean is then used as
a row index into the timetable (False is row 0, True is row 1). -/
def conflictPeriodsCode (fac : Faculty) (t : Timetable) (c : Nat) (fromP : Option Nat) : List Nat :=
  (conflictRow fac c).foldl
    (fun acc b => acc.filter (fun p => cell t (if b then 1 else 0) p == 0))
    (availablePeriods fac t c fromP)

/-- Solver.get_free_period: choose from stage 4 when it has at least two
candidates, else from stage 3. -/
def getFreePeriod (fac : Faculty) (t : Timetable) (c : Nat) (fromP : Option Nat) (rng : Rng) :
    Except PyErr (Nat × Rng) :=
  if (conflictPeriodsCode fac t c fromP).length < 2 then
    randomChoice (availablePeriods fac t c fromP) rng
  else
    randomChoice (conflictPeriodsCode fac t c fromP) rng

/-- Solver.get_free_room: rooms 1..R minus from_r when passed (the
timetable, course and period arguments are unused in the source too). -/
def getFreeRoom (fac : Faculty) (t : Timetable) (c p : Nat) (fromR : Option Nat) (rng : Rng) :
    Except PyErr (Nat × Rng) :=
  let rooms := (List.range fac.rooms).map (fun r => r + 1)
  let fromRooms := match fromR with
    | some q => rooms.filter (fun r => r != q)
    | none => rooms
  randomChoice fromRooms rng

/-- The candidate course list of pick_course_period_room. -/
def pickCandidates (fac : Faculty) (bad : Option Nat) : List Nat :=
  match bad with
  | some b => (List.range fac.courses).filter (fun c => c != b)
  | none => List.range fac.courses

/-- The scan loop of pick_course_period_room: walk the periods, skip empty
cells, count down i over occupied ones; falling off the end raises
ValueError. -/
def scanLecture (t : Timetable) (c : Nat) : Nat → List Nat → Except PyErr (Nat × Nat)
  | _, [] => .error .valueError
  | i, p :: ps =>
    let room := cell t c p
    if room == 0 then scanLecture t c i ps
    else if i ≠ 0 then scanLecture t c (i - 1) ps
    else .ok (p, room)

/-- Solver.pick_course_period_room. -/
def pickCoursePeriodRoom (fac : Faculty) (t : Timetable) (bad : Option Nat) (rng : Rng) :
    Except PyErr ((Nat × Nat × Nat) × Rng) :=
  match randomChoice (pickCandidates fac bad) rng with
  | .error e => .error e
  | .ok (c, rng) =>
    match getE fac.courseVect c with
    | .error e => .error e
    | .ok course =>
      match randrange course.lectures rng with
      | .error e => .error e
      | .ok (i, rng) =>
        match scanLecture t c i (List.range fac.periods) with
        | .error e => .error e
        | .ok (p, room) => .ok ((c, p, room), rng)

/-- Solver.mutate_change_room. -/
def mutateChangeRoom (S : Solver) (t : Timetable) (rng : Rng) : Except PyErr (Timetable × Rng) :=
  match pickCoursePeriodRoom S.faculty t none rng with
  | .error e => .error e
  | .ok ((c, p, room), rng) =>
    match getFreeRoom S.faculty t c p (some room) rng with
    | .error e => .error e
    | .ok (newRoom, rng) => .ok (setCell t c p newRoom, rng)

/-- Solver.mutate_change_period. -/
def mutateChangePeriod (S : Solver) (t : Timetable) (rng : Rng) : Except PyErr (Timetable × Rng) :=
  match pickCoursePeriodRoom S.faculty t none rng with
  | .error e => .error e
  | .ok ((c, p, _room), rng) =>
    match getFreePeriod S.faculty t c (some p) rng with
    | .error e => .error e
    | .ok (newP, rng) => .ok (setCell (setCell t c newP (cell t c p)) c p 0, rng)

/-- Solver.mutate_change_both. -/
def mutateChangeBoth (S : Solver) (t : Timetable) (rng : Rng) : Except PyErr (Timetable × Rng) :=
  match pickCoursePeriodRoom S.faculty t none rng with
  | .error e => .error e
  | .ok ((c, p, room), rng) =>
    match getFreePeriod S.faculty t c (some p) rng with
    | .error e => .error e
    | .ok (newP, rng) =>
      match getFreeRoom S.faculty t c newP (some room) rng with
      | .error e => .error e
      | .ok (newRoom, rng) => .ok (setCell (setCell t c newP newRoom) c p 0, rng)

/-- Solver.mutate_swap_room. -/
def mutateSwapRoom (S : Solver) (t : Timetable) (rng : Rng) : Except PyErr (Timetable × Rng) :=
  match pickCoursePeriodRoom S.faculty t none rng with
  | .error e => .error e
  | .ok ((fc, fp, fr), rng) =>
    match pickCoursePeriodRoom S.faculty t (some fc) rng with
    | .error e => .error e
    | .ok ((tc, tp, tr), rng) => .ok (setCell (setCell t fc fp tr) tc tp fr, rng)

/-- Solver.mutate_swap_period. -/
def mutateSwapPeriod (S : Solver) (t : Timetable) (rng : Rng) : Except PyErr (Timetable × Rng) :=
  match pickCoursePeriodRoom S.faculty t none rng with
  | .error e => .error e
  | .ok ((fc, fp, fr), rng) =>
    match pickCoursePeriodRoom S.faculty t (some fc) rng with
    | .error e => .error e
    | .ok ((tc, tp, tr), rng) =>
      if cell t fc tp != 0 || cell t tc fp != 0 then .ok (t, rng)
      else
        .ok (setCell (setCell (setCell (setCell t fc fp 0) fc tp fr) tc tp 0) tc fp tr, rng)

/-- Solver.mutate_swap_both. -/
def mutateSwapBoth (S : Solver) (t : Timetable) (rng : Rng) : Except PyErr (Timetable × Rng) :=
  match pickCoursePeriodRoom S.faculty t none rng with
  | .error e => .error e
  | .ok ((fc, fp, fr), rng) =>
    match pickCoursePeriodRoom S.faculty t (some fc) rng with
    | .error e => .error e
    | .ok ((tc, tp, tr), rng) =>
      if cell t fc tp != 0 || cell t tc fp != 0 then .ok (t, rng)
      else
        .ok (setCell (setCell (setCell (setCell t fc fp 0) fc tp tr) tc tp 0) tc fp fr, rng)

def applyMutOp (S : Solver) : MutOp → Timetable → Rng → Except PyErr (Timetable × Rng)
  | .change_room => mutateChangeRoom S
  | .change_period => mutateChangePeriod S
  | .change_both => mutateChangeBoth S
  | .swap_room => mutateSwapRoom S
  | .swap_period => mutateSwapPeriod S
  | .swap_both => mutateSwapBoth S

/-- The mutation loop inside Solver.iterate: draw a member from
mutation_chances and apply the method the dispatch dict holds for it. -/
def iterateLoop (S : Solver) : Nat → Timetable → Rng → Except PyErr (Timetable × Rng)
  | 0, t, rng => .ok (t, rng)
  | k + 1, t, rng =>
    match getRandomOption mutationChances rng with
    | .error e => .error e
    | .ok (m, rng) =>
      match dictLookup mutateTable m with
      | none => .error .keyError
      | some op =>
        match applyMutOp S op t rng with
        | .error e => .error e
        | .ok (t, rng) => iterateLoop S k t rng

/-- Solver.iterate: clone, apply the drawn number of mutations, refresh. -/
def Solver.iterate (S : Solver) (t : Timetable) (rng : Rng) : Except PyErr (Timetable × Rng) :=
  match getRandomOption mutationCountChances rng with
  | .error e => .error e
  | .ok (cnt, rng) =>
    match iterateLoop S cnt t.clone rng with
    | .error e => .error e
    | .ok (t, rng) => .ok (updateRedundantData t, rng)

/-- Solver.should_accept: new_cost < old_cost or random.random() < 0.01;
the draw happens only when the first disjunct is false (Python or is
short-circuiting). -/
def shouldAccept (oldCost newCost : Nat) (rng : Rng) : Bool × Rng :=
  if newCost < oldCost then (true, rng)
  else
    let (f, rng2) := rng.nextFloat
    (f.lt { num := 1, den := 100 }, rng2)

/-- Solver.evaluate, via the spec-modelled Validator totals. -/
def Solver.evaluate (S : Solver) (t : Timetable) : Except PyErr Nat :=
  match totalSoftCost S.faculty t with
  | .error e => .error e
  | .ok soft => .ok (totalViolationCost S.faculty t * S.violationCost + soft)

/-- Modelled from the spec: faculty.course_conflict_weights is referenced
by Solver.init but absent from src.  Spec 4.4.1 sorts courses in
descending order of the size of conflict[c]. -/
def courseConflictWeights (fac : Faculty) (c : Nat) : Nat :=
  ((fac.conflict.getD c []).filter (fun b => b)).length

/-- Stable insertion into a list sorted in descending weight order. -/
def insertByWeightDesc (fac : Faculty) (c : Nat) : List Nat → List Nat
  | [] => [c]
  | d :: ds =>
    if courseConflictWeights fac d > courseConflictWeights fac c then
      d :: insertByWeightDesc fac c ds
    else c :: d :: ds

def sortByWeightDesc (fac : Faculty) : List Nat → List Nat
  | [] => []
  | c :: cs => insertByWeightDesc fac c (sortByWeightDesc fac cs)

/-- The course traversal order of Solver.init. -/
def initCourseOrder (S : Solver) : List Nat :=
  if S.sortCourses then sortByWeightDesc S.faculty (List.range S.faculty.courses)
  else List.range S.faculty.courses

/-- Inner loop of Solver.init: place the lectures of one course. -/
def placeLectures (S : Solver) (c : Nat) : Nat → Timetable → Rng → Except PyErr (Timetable × Rng)
  | 0, t, rng => .ok (t, rng)
  | k + 1, t, rng =>
    match getFreePeriod S.faculty t c none rng with
    | .error e => .error e
    | .ok (p, rng) =>
      match getFreeRoom S.faculty t c p none rng with
      | .error e => .error e
      | .ok (room, rng) => placeLectures S c k (setCell t c p room) rng

def initPlaceAll (S : Solver) : List Nat → Timetable → Rng → Except PyErr (Timetable × Rng)
  | [], t, rng => .ok (t, rng)
  | c :: cs, t, rng =>
    match getE S.faculty.courseVect c with
    | .error e => .error e
    | .ok course =>
      match placeLectures S c course.lectures t rng with
      | .error e => .error e
      | .ok (t, rng) => initPlaceAll S cs t rng

/-- Solver.init: start from an empty timetable, place every lecture of
every course, then refresh. -/
def Solver.init (S : Solver) (rng : Rng) : Except PyErr (Timetable × Rng) :=
  match initPlaceAll S (initCourseOrder S) (Timetable.fromFaculty S.faculty) rng with
  | .error e => .error e
  | .ok (t, rng) => .ok (updateRedundantData t, rng)

/-- The iteration loop of Solver.shot. -/
def shotLoop (S : Solver) : Nat → Nat → Timetable → Nat → Rng → Except PyErr (Nat × Timetable × Rng)
  | 0, cost, tt, _, rng => .ok (cost, tt, rng)
  | k + 1, cost, tt, rejects, rng =>
    if rejects > S.maxConsecutiveRejects then .ok (cost, tt, rng)
    else
      match S.iterate tt rng with
      | .error e => .error e
      | .ok (newTT, rng) =>
       match (if newTT = tt then Except.ok cost else S.evaluate newTT) with
        | .error e => .error e
        | .ok newCost =>
          let (acc, rng) := shouldAccept cost newCost rng
          if acc then shotLoop S k newCost newTT 0 rng
          else shotLoop S k cost tt (rejects + 1) rng

/-- Solver.shot.  random.seed(seed) is its first statement: the ambient
random state a worker had before the call is discarded, which is what the
ambient argument being unused expresses. -/
def shot (S : Solver) (ambient : Rng) (cost? : Option Nat) (tt? : Option Timetable) (seed : Nat) :
    Except PyErr (Nat × Timetable) :=
  let rng := S.seedFn seed
  match (match tt? with
         | some t => Except.ok (t, rng)
         | none => S.init rng) with
  | .error e => .error e
  | .ok (tt, rng) =>
    match (match cost? with
           | some c => Except.ok c
           | none => S.evaluate tt) with
    | .error e => .error e
    | .ok cost =>
      match shotLoop S S.iterations cost tt 0 rng with
      | .error e => .error e
      | .ok (cost, tt, _) => .ok (cost, tt)

/-- The per-slot inner seeds drawn from the coordinator RNG by the
generator expression in shot_timetables: one randrange(sys.maxsize) per
zipped slot, in slot order. -/
def drawSeeds : Nat → Rng → List Nat × Rng
  | 0, rng => ([], rng)
  | k + 1, rng =>
    let (v, rng) := rng.nextInt
    let (rest, rng2) := drawSeeds k rng
    (v % maxsize :: rest, rng2)

def runShots (S : Solver) (ambient : Rng) :
    List ((Option Nat × Option Timetable) × Nat) → Except PyErr (List (Nat × Timetable))
  | [] => .ok []
  | (task, seed) :: rest =>
    match shot S ambient task.1 task.2 seed with
    | .error e => .error e
    | .ok r =>
      match runShots S ambient rest with
      | .error e => .error e
      | .ok rs => .ok (r :: rs)

/-- Solver.shot_timetables: the executor map preserves slot order; the
seed generator is consumed once per zipped slot. -/
def shotTimetables (S : Solver) (tasks : List (Option Nat × Option Timetable)) (rng : Rng) :
    Except PyErr (List (Nat × Timetable) × Rng) :=
  let n := min tasks.length S.shots
  let (seeds, rng2) := drawSeeds n rng
  match runShots S rng2 ((tasks.take n).zip seeds) with
  | .error e => .error e
  | .ok rs => .ok (rs, rng2)

/-- Stable insertion by cost (heapq.nsmallest keeps the original order of
equal keys, like sorted). -/
def insertByCost (x : Nat × Timetable) : List (Nat × Timetable) → List (Nat × Timetable)
  | [] => [x]
  | y :: ys => if y.1 < x.1 then y :: insertByCost x ys else x :: y :: ys

def sortByCost : List (Nat × Timetable) → List (Nat × Timetable)
  | [] => []
  | x :: xs => insertByCost x (sortByCost xs)

/-- itertools islice(cycle(l), n). -/
def cycleTake (l : List (Nat × Timetable)) (n : Nat) : List (Nat × Timetable) :=
  if h : l.length = 0 then []
  else (List.range n).map (fun i => l.get ⟨i % l.length, Nat.mod_lt _ (Nat.pos_of_ne_zero h)⟩)

/-- Python min(l, key=itemgetter(0)): first element of minimal cost;
ValueError on an empty list. -/
def minByCost : List (Nat × Timetable) → Except PyErr (Nat × Timetable)
  | [] => .error .valueError
  | x :: xs => .ok (xs.foldl (fun b y => if y.1 < b.1 then y else b) x)

/-- The slice loop of do_the_thing.  Returns the final round list and the
trace of the re-shot rounds. -/
def doTheThingLoop (S : Solver) :
    Nat → List (Nat × Timetable) → Rng →
      Except PyErr (List (Nat × Timetable) × List (List (Nat × Timetable)) × Rng)
  | 0, tts, rng => .ok (tts, [], rng)
  | k + 1, tts, rng =>
    let top := S.sliceFrac.scale tts.length
    if top = 0 then .ok (tts, [], rng)
    else
      let selected := (sortByCost tts).take top
      let selected := if S.repeatSlicedResults then cycleTake selected S.shots else selected
      match shotTimetables S (selected.map (fun ct => (some ct.1, some ct.2))) rng with
      | .error e => .error e
      | .ok (newTts, rng) =>
        match doTheThingLoop S k newTts rng with
        | .error e => .error e
        | .ok (fin, trace, rng2) => .ok (fin, newTts :: trace, rng2)

/-- Solver.do_the_thing with its full observable history: the returned
best pair, the final round list it is drawn from, and every round of shot
results (the initial shots round first). -/
def doTheThingFull (S : Solver) (initTT : Option Timetable) (ambient : Rng) :
    Except PyErr ((Nat × Timetable) × List (Nat × Timetable) × List (List (Nat × Timetable))) :=
  match shotTimetables S (List.replicate S.shots ((none : Option Nat), initTT)) (S.seedFn S.seed) with
  | .error e => .error e
  | .ok (tts, rng) =>
    match doTheThingLoop S S.slices tts rng with
    | .error e => .error e
    | .ok (fin, trace, _) =>
      match minByCost fin with
      | .error e => .error e
      | .ok best => .ok (best, fin, tts :: trace)

/-- Solver.do_the_thing: the pair the source returns. -/
def doTheThing (S : Solver) (initTT : Option Timetable) (ambient : Rng) :
    Except PyErr (Nat × Timetable) :=
  match doTheThingFull S initTT ambient with
  | .error e => .error e
  | .ok (best, _, _) => .ok best

/-- Number of occupied cells of one grid row. -/
def occCount (row : List Nat) : Nat :=
  row.countP (fun v => v != 0)

def rowOf (t : Timetable) (c : Nat) : List Nat :=
  t.timetable.getD c []

/-- Total number of placed lectures in the grid. -/
def totalPlaced (t : Timetable) : Nat :=
  (t.timetable.map occCount).sum

/-- Well-formedness of the grid: the shape every Timetable built by the
program has (courses rows of periods cells). -/
def GridWF (fac : Faculty) (t : Timetable) : Prop :=
  t.timetable.length = fac.courses ∧ ∀ row ∈ t.timetable, row.length = fac.periods

instance (fac : Faculty) (t : Timetable) : Decidable (GridWF fac t) := by
  unfold GridWF; infer_instance

/-- The spec 3 definition of room_lectures (count of lectures assigned to
room r at period p), written from the spec for comparison with the code. -/
def specRoomLectures (fac : Faculty) (t : Timetable) (r p : Nat) : Nat :=
  ((List.range fac.courses).filter (fun c => cell t c p == r)).length

/-- The spec 3 definition of working_days (count of days on which the
course has at least one lecture), for comparison with the code. -/
def specWorkingDays (fac : Faculty) (t : Timetable) (c : Nat) : Nat :=
  ((List.range fac.days).filter (fun d =>
    (List.range fac.periodsPerDay).any (fun q => cell t c (d * fac.periodsPerDay + q) != 0))).length

/-- The spec 4.4.1 stage 4 of the free-period cascade (remove periods
where any conflicting course already has a lecture), written from the
spec for comparison with the code. -/
def specConflictPeriods (fac : Faculty) (t : Timetable) (c : Nat) (fromP : Option Nat) : List Nat :=
  (availablePeriods fac t c fromP).filter (fun p =>
    (List.range fac.courses).all (fun c2 => !conflictAt fac c c2 || cell t c2 p == 0))

/-- The spec 4.3 item 7 isolation test: no same-day neighbour period holds
a lecture of the curriculum.  Written from the spec for comparison. -/
def specIsolated (fac : Faculty) (t : Timetable) (g p : Nat) : Bool :=
  (p % fac.periodsPerDay == 0 || getD2 t.curriculumPeriodLectures g (p - 1) == 0) &&
  ((p + 1) % fac.periodsPerDay == 0 || p + 1 == fac.periods ||
    getD2 t.curriculumPeriodLectures g (p + 1) == 0)

/-- The spec 4.3 item 7 curriculum-compactness term, for comparison. -/
def specCurriculumCompactness (fac : Faculty) (t : Timetable) : Nat :=
  (List.range fac.curricula).foldl (fun cost g =>
    (List.range fac.periods).foldl (fun cost p =>
      let cur := getD2 t.curriculumPeriodLectures g p
      if cur > 0 && specIsolated fac t g p then cost + cur else cost) cost) 0

/- Concrete problem instances used to settle the claims. -/

/-- One course, two rooms (capacity 1 and 0), one period. -/
def facC1 : Faculty :=
  { name := "toy1"
    rooms := 2
    courses := 1
    periods := 1
    periodsPerDay := 1
    curricula := 0
    courseVect := [{ name := "a", teacher := "t1", students := 1, lectures := 1, minWorkingDays := 1 }]
    roomVect := [none, some { name := "A", capacity := 1 }, some { name := "B", capacity := 0 }]
    curriculaVect := []
    availability := [[true]]
    conflict := [[false]]
    courseNames := ["a"]
    roomNames := [none, some "A", some "B"] }

/-- A stream whose discrete draws are all 0 and whose random() draws are
all one half (rejects the acceptance noise test). -/
def rngRejecting : Rng :=
  { ints := fun _ => 0, floats := fun _ => { num := 1, den := 2 }, pos := 0, fpos := 0 }

/-- A stream whose discrete draws are all 0 and whose random() draws are
all 0 (passes the acceptance noise test). -/
def rngAccepting : Rng :=
  { ints := fun _ => 0, floats := fun _ => { num := 0, den := 1 }, pos := 0, fpos := 0 }

/-- A coordinator stream whose k-th discrete draw is k: the first inner
seed drawn is 0, the second is 1. -/
def rngMaster : Rng :=
  { ints := fun i => i, floats := fun _ => { num := 0, den := 1 }, pos := 0, fpos := 0 }

/-- The seed-to-stream map for the C1 run: inner seed 0 gives the
rejecting stream, inner seed 1 the accepting one, the master seed 5 the
coordinator stream. -/
def seedFnC1 : Nat → Rng :=
  fun n => if n = 0 then rngRejecting else if n = 1 then rngAccepting else rngMaster

/-- Solver configuration for the C1 run: one shot per round, one
iteration per shot, one slice round, ratio 1. -/
def sC1 : Solver :=
  { faculty := facC1
    violationCost := 100
    seed := 5
    shots := 1
    iterations := 1
    slices := 1
    sliceFrac := { num := 1, den := 1 }
    maxConsecutiveRejects := 20
    sortCourses := false
    repeatSlicedResults := false
    seedFn := seedFnC1 }

/-- Four courses; only courses 2 and 3 conflict (shared curriculum);
one day of two periods; course 0 placed at period 0, course 3 at 1. -/
def facC3 : Faculty :=
  { name := "toy3"
    rooms := 1
    courses := 4
    periods := 2
    periodsPerDay := 2
    curricula := 1
    courseVect :=
      [{ name := "a", teacher := "t1", students := 0, lectures := 1, minWorkingDays := 1 },
       { name := "b", teacher := "t2", students := 0, lectures := 1, minWorkingDays := 1 },
       { name := "c", teacher := "t3", students := 0, lectures := 1, minWorkingDays := 1 },
       { name := "d", teacher := "t4", students := 0, lectures := 1, minWorkingDays := 1 }]
    roomVect := [none, some { name := "A", capacity := 10 }]
    curriculaVect := [{ name := "g", members := ["c", "d"] }]
    availability := [[true, true], [true, true], [true, true], [true, true]]
    conflict :=
      [[false, false, false, false],
       [false, false, false, false],
       [false, false, false, true],
       [false, false, true, false]]
    courseNames := ["a", "b", "c", "d"]
    roomNames := [none, some "A"] }

def ttC3 : Timetable :=
  { Timetable.fromFaculty facC3 with timetable := [[1, 0], [0, 0], [0, 0], [0, 1]] }

/-- One course, one room, one period. -/
def facC4 : Faculty :=
  { name := "toy4"
    rooms := 1
    courses := 1
    periods := 1
    periodsPerDay := 1
    curricula := 0
    courseVect := [{ name := "a", teacher := "t1", students := 0, lectures := 1, minWorkingDays := 1 }]
    roomVect := [none, some { name := "A", capacity := 1 }]
    curriculaVect := []
    availability := [[true]]
    conflict := [[false]]
    courseNames := ["a"]
    roomNames := [none, some "A"] }

/-- Grid with one lecture and caches already holding exactly the spec 3
values for that grid. -/
def tC4 : Timetable :=
  { faculty := facC4
    warnings := 0
    timetable := [[1]]
    roomLectures := [[0], [1]]
    curriculumPeriodLectures := []
    courseDailyLectures := [[1]]
    workingDays := [1]
    usedRooms := [[1]] }

/-- Grid with one lecture and zeroed caches. -/
def tC5 : Timetable :=
  { Timetable.fromFaculty facC4 with timetable := [[1]] }

/-- One course, one room, two days of two periods each. -/
def facC6 : Faculty :=
  { name := "toy6"
    rooms := 1
    courses := 1
    periods := 4
    periodsPerDay := 2
    curricula := 0
    courseVect := [{ name := "a", teacher := "t1", students := 0, lectures := 1, minWorkingDays := 1 }]
    roomVect := [none, some { name := "A", capacity := 10 }]
    curriculaVect := []
    availability := [[true, true, true, true]]
    conflict := [[false]]
    courseNames := ["a"]
    roomNames := [none, some "A"] }

/-- One course (one required lecture), one room, one period. -/
def facC7 : Faculty :=
  { name := "toy7"
    rooms := 1
    courses := 1
    periods := 1
    periodsPerDay := 1
    curricula := 0
    courseVect := [{ name := "a", teacher := "t1", students := 0, lectures := 1, minWorkingDays := 1 }]
    roomVect := [none, some { name := "A", capacity := 1 }]
    curriculaVect := []
    availability := [[true]]
    conflict := [[false]]
    courseNames := ["a"]
    roomNames := [none, some "A"] }

/-- The course has no occupied cell. -/
def tC7empty : Timetable := Timetable.fromFaculty facC7

/-- The single period is occupied, so stage 3 of the cascade is empty. -/
def tC7full : Timetable :=
  { Timetable.fromFaculty facC7 with timetable := [[1]] }

def sC7 : Solver :=
  { faculty := facC7
    violationCost := 1
    seed := 0
    shots := 1
    iterations := 1
    slices := 0
    sliceFrac := { num := 1, den := 1 }
    maxConsecutiveRejects := 0
    sortCourses := false
    repeatSlicedResults := false
    seedFn := fun _ => rngAccepting }

/-- periods_per_day 1, two days; one curriculum holding the one course;
lectures at both periods, caches refreshed. -/
def facC8 : Faculty :=
  { name := "toy8"
    rooms := 1
    courses := 1
    periods := 2
    periodsPerDay := 1
    curricula := 1
    courseVect := [{ name := "a", teacher := "t1", students := 0, lectures := 2, minWorkingDays := 1 }]
    roomVect := [none, some { name := "A", capacity := 1 }]
    curriculaVect := [{ name := "g", members := ["a"] }]
    availability := [[true, true]]
    conflict := [[false]]
    courseNames := ["a"]
    roomNames := [none, some "A"] }

def tC8 : Timetable :=
  { Timetable.fromFaculty facC8 with
    timetable := [[1, 1]]
    curriculumPeriodLectures := [[1, 1]] }

/-- C9: the solver is deterministic in the sense the spec requires.  A
shot seeds the local RNG with its inner seed at entry, so its result does
not depend on the ambient random state two runs start from; likewise
do_the_thing seeds the master RNG with the configured seed first, and the
pool map preserves slot order, so two runs with the same master seed and
per-slot ordering return identical pairs. -/
theorem C9_determinism (S : Solver) :
    (∀ (r1 r2 : Rng) (cost? : Option Nat) (tt? : Option Timetable) (seed : Nat),
      shot S r1 cost? tt? seed = shot S r2 cost? tt? seed) ∧
    (∀ (r1 r2 : Rng) (initTT : Option Timetable),
      doTheThing S initTT r1 = doTheThing S initTT r2) := by
  refine ⟨fun r1 r2 c t s => rfl, fun r1 r2 i => rfl⟩

/-- C2 is a code bug: the Mutation Enum aliases change_both onto
change_period and swap_both onto swap_period, so mutation_chances has
only four keys with weights 4, 2, 2, 1 (not six with 4, 4, 2, 2, 2, 2, 1),
and the dispatch dict sends the change_period member to mutate_change_both
and the swap_period member to mutate_swap_both. -/
theorem C2_enum_aliasing :
    mutationMember MutationName.change_both = MutationName.change_period ∧
    mutationMember MutationName.swap_both = MutationName.swap_period ∧
    mutationChances = [(MutationName.change_room, 4), (MutationName.change_period, 2),
      (MutationName.swap_room, 2), (MutationName.swap_period, 1)] ∧
    dictLookup mutateTable MutationName.change_period = some MutOp.change_both ∧
    dictLookup mutateTable MutationName.swap_period = some MutOp.swap_both := by
  decide

/-- C3 is a code bug: stage 4 of the free-period cascade iterates over
the booleans of conflict[c] and uses them as timetable row indices, so for
course 2 it keeps period 1, where the conflicting course 3 has a lecture,
and removes period 0, where only the non-conflicting course 0 has one;
the spec-defined stage 4 set is exactly the opposite. -/
theorem C3_stage4_wrong_rows :
    conflictPeriodsCode facC3 ttC3 2 none = [1] ∧
    specConflictPeriods facC3 ttC3 2 none = [0] ∧
    conflictAt facC3 2 3 = true ∧ cell ttC3 3 1 = 1 ∧
    conflictAt facC3 2 0 = false ∧ cell ttC3 0 0 = 1 := by
  decide

/-- C4 is a code bug: update_redundant_data increments the caches without
zeroing them, so on a timetable whose caches already hold the spec 3
values a refresh leaves room_lectures[1][0] at 2 and working_days[0] at 2
while the spec 3 definitions give 1 and 1. -/
theorem C4_refresh_accumulates :
    getD2 (updateRedundantData tC4).roomLectures 1 0 = 2 ∧
    specRoomLectures facC4 tC4 1 0 = 1 ∧
    (updateRedundantData tC4).workingDays = [2] ∧
    specWorkingDays facC4 tC4 0 = 1 := by
  decide

/-- C5 is a code bug: refresh is not idempotent; with one placed lecture
the first call yields room_lectures [[0], [1]] and a second call doubles
the count to [[0], [2]]. -/
theorem C5_refresh_not_idempotent :
    (updateRedundantData tC5).roomLectures = [[0], [1]] ∧
    (updateRedundantData (updateRedundantData tC5)).roomLectures = [[0], [2]] := by
  decide

/-- C6 is a code bug: from_stream tests day > D and timeslot > P instead
of the spec inequalities day >= D and timeslot >= P.  A line with
timeslot equal to P (here 2) is accepted without warning and lands in the
next day's first slot, and a line with day equal to D + something in
range even raises IndexError instead of being skipped. -/
theorem C6_bound_check_off_by_one :
    (Timetable.fromStream facC6 [{ course := "a", room := "A", day := 0, timeslot := 2 }]).map
      (fun t => (t.warnings, t.timetable)) = .ok (0, [[0, 0, 1, 0]]) ∧
    Timetable.fromStream facC6 [{ course := "a", room := "A", day := 2, timeslot := 0 }] =
      .error .indexError := by
  decide

/-- C8 is a code bug: with periods_per_day 1 the compactness loop takes
the first-slot branch at every period and reads
curriculum_period_lectures[g][p + 1], which falls off the list end at the
last period (IndexError), while the spec definition (no same-day
neighbours exist, every lecture is isolated) gives 2 on this instance. -/
theorem C8_ppd1_mismatch :
    costsOnCurriculumCompactness facC8 tC8 = .error .indexError ∧
    specCurriculumCompactness facC8 tC8 = 2 := by
  decide

/-- C1 as stated is false: on this run the funnel's first round produces
cost 0, the slice round re-walks it and (through the 1-percent acceptance
noise) returns cost 1, and do_the_thing returns 1, the minimum of the
final round only, not the lowest cost over the entire run. -/
theorem C1_counterexample :
    (doTheThing sC1 none rngMaster).map Prod.fst = .ok 1 ∧
    (doTheThingFull sC1 none rngMaster).map
      (fun x => x.2.2.map (fun round => round.map Prod.fst)) = .ok [[0], [1]] := by
  decide

/-- C7 as stated is false: when the picked course has no occupied cell
pick_course_period_room raises ValueError, so mutate_change_room
propagates an exception instead of silently returning the timetable, and
when stage 3 of the cascade is empty get_free_period raises IndexError
(random.choice on an empty tuple) instead of no-opping. -/
theorem C7_counterexample :
    errOf (mutateChangeRoom sC7 tC7empty rngAccepting) = some PyErr.valueError ∧
    errOf (getFreePeriod facC7 tC7full 0 none rngAccepting) = some PyErr.indexError := by
  decide

/- Basic lemmas about the list helpers. -/

theorem listModify_length {α : Type} (f : α → α) (i : Nat) (l : List α) :
    (listModify f i l).length = l.length := by
  induction l generalizing i with
  | nil => cases i <;> rfl
  | cons a as ih =>
    cases i with
    | zero => rfl
    | succ n => simpa [listModify] using ih n

theorem listModify_getD_ne {α : Type} (f : α → α) (i j : Nat) (l : List α) (d : α)
    (h : j ≠ i) : (listModify f i l).getD j d = l.getD j d := by
  induction l generalizing i j with
  | nil => cases i <;> rfl
  | cons a as ih =>
    cases i with
    | zero =>
      cases j with
      | zero => exact absurd rfl h
      | succ m => simp [listModify]
    | succ n =>
      cases j with
      | zero => simp [listModify]
      | succ m =>
        simp only [listModify, List.getD_cons_succ]
        exact ih n m (fun hh => h (by omega))

theorem listModify_getD_self {α : Type} (f : α → α) (i : Nat) (l : List α) (d : α)
    (h : i < l.length) : (listModify f i l).getD i d = f (l.getD i d) := by
  induction l generalizing i with
  | nil => simp at h
  | cons a as ih =>
    cases i with
    | zero => simp [listModify]
    | succ n =>
      simp only [listModify, List.getD_cons_succ]
      exact ih n (by simpa using h)

theorem mem_listModify {α : Type} (f : α → α) (i : Nat) (l : List α) (x : α)
    (h : x ∈ listModify f i l) : x ∈ l ∨ ∃ y, y ∈ l ∧ x = f y := by
  induction l generalizing i with
  | nil => cases i <;> cases h
  | cons a as ih =>
    cases i with
    | zero =>
      rcases List.mem_cons.mp h with h1 | h1
      · exact Or.inr ⟨a, List.mem_cons_self a as, h1⟩
      · exact Or.inl (List.mem_cons_of_mem _ h1)
    | succ n =>
      rcases List.mem_cons.mp h with h1 | h1
      · exact Or.inl (h1 ▸ List.mem_cons_self a as)
      · rcases ih n h1 with h2 | ⟨y, hy, hxy⟩
        · exact Or.inl (List.mem_cons_of_mem _ h2)
        · exact Or.inr ⟨y, List.mem_cons_of_mem _ hy, hxy⟩

theorem getD_eq_getElem (l : List Nat) (i : Nat) (h : i < l.length) : l.getD i 0 = l[i] := by
  rw [List.getD_eq_getElem?_getD, List.getElem?_eq_getElem h]
  rfl

theorem getD_set_ne (l : List Nat) (i j a : Nat) (h : i ≠ j) :
    (l.set i a).getD j 0 = l.getD j 0 := by
  rw [List.getD_eq_getElem?_getD, List.getD_eq_getElem?_getD, List.getElem?_set_ne h]

theorem lt_length_of_getD_ne (l : List Nat) (p : Nat) (h : l.getD p 0 ≠ 0) : p < l.length := by
  by_contra hc
  push_neg at hc
  rw [List.getD_eq_getElem?_getD, List.getElem?_eq_none (by omega)] at h
  exact h rfl

/- Lemmas about occupied-cell counts. -/

theorem countP_set_getD (l : List Nat) (i v : Nat) (h : i < l.length) (p : Nat → Bool) :
    (l.set i v).countP p = l.countP p - (if p (l.getD i 0) then 1 else 0) + (if p v then 1 else 0) := by
  rw [List.countP_set p l i v h, getD_eq_getElem l i h]

theorem occCount_pos (row : List Nat) (p : Nat) (h : row.getD p 0 ≠ 0) : 0 < occCount row := by
  have hp := lt_length_of_getD_ne row p h
  rw [getD_eq_getElem row p hp] at h
  unfold occCount
  refine List.countP_pos_iff.mpr ⟨row[p], List.getElem_mem hp, ?_⟩
  simpa using h

theorem occCount_set_keep (row : List Nat) (p v : Nat) (hold : row.getD p 0 ≠ 0) (hv : v ≠ 0) :
    occCount (row.set p v) = occCount row := by
  have hp := lt_length_of_getD_ne row p hold
  have hpos := occCount_pos row p hold
  unfold occCount at hpos ⊢
  rw [countP_set_getD row p v hp]
  have h1 : (row.getD p 0 != 0) = true := by simpa using hold
  have h2 : (v != 0) = true := by simpa using hv
  rw [h1, h2]
  simp only [if_true]
  omega

theorem occCount_fill_then_zero (row : List Nat) (a b x : Nat)
    (hab : a ≠ b) (hb : b < row.length)
    (ha0 : row.getD a 0 ≠ 0) (hb0 : row.getD b 0 = 0) (hx : x ≠ 0) :
    occCount ((row.set b x).set a 0) = occCount row := by
  have ha := lt_length_of_getD_ne row a ha0
  have hpos := occCount_pos row a ha0
  have s1 : occCount (row.set b x) = occCount row + 1 := by
    unfold occCount
    rw [countP_set_getD row b x hb, hb0]
    have h2 : (x != 0) = true := by simpa using hx
    rw [h2]
    simp
  have ha' : a < (row.set b x).length := by simpa using ha
  have hEl : (row.set b x).getD a 0 = row.getD a 0 := getD_set_ne row b a x (Ne.symm hab)
  have hpos1 : 0 < occCount (row.set b x) := occCount_pos (row.set b x) a (by rw [hEl]; exact ha0)
  have s2 : occCount ((row.set b x).set a 0) + 1 = occCount (row.set b x) := by
    unfold occCount at hpos1 ⊢
    rw [countP_set_getD _ a 0 ha', hEl]
    have h1 : (row.getD a 0 != 0) = true := by simpa using ha0
    rw [h1]
    simp only [if_true, bne_self_eq_false, Bool.false_eq_true, if_false]
    omega
  omega

theorem occCount_zero_then_fill (row : List Nat) (a b x : Nat)
    (hab : a ≠ b) (hb : b < row.length)
    (ha0 : row.getD a 0 ≠ 0) (hb0 : row.getD b 0 = 0) (hx : x ≠ 0) :
    occCount ((row.set a 0).set b x) = occCount row := by
  have ha := lt_length_of_getD_ne row a ha0
  have hpos := occCount_pos row a ha0
  have s1 : occCount (row.set a 0) + 1 = occCount row := by
    unfold occCount at hpos ⊢
    rw [countP_set_getD row a 0 ha]
    have h1 : (row.getD a 0 != 0) = true := by simpa using ha0
    rw [h1]
    simp only [if_true, bne_self_eq_false, Bool.false_eq_true, if_false]
    omega
  have hb' : b < (row.set a 0).length := by simpa using hb
  have hEl : (row.set a 0).getD b 0 = row.getD b 0 := getD_set_ne row a b 0 hab
  have s2 : occCount ((row.set a 0).set b x) = occCount (row.set a 0) + 1 := by
    unfold occCount
    rw [countP_set_getD _ b x hb', hEl, hb0]
    have h2 : (x != 0) = true := by simpa using hx
    rw [h2]
    simp
  omega

/- Lemmas about grid rows and setCell. -/

theorem cell_eq_rowOf (t : Timetable) (c p : Nat) : cell t c p = (rowOf t c).getD p 0 := rfl

theorem rowOf_setCell_ne (t : Timetable) (c p v c2 : Nat) (h : c2 ≠ c) :
    rowOf (setCell t c p v) c2 = rowOf t c2 :=
  listModify_getD_ne _ c c2 _ _ h

theorem rowOf_setCell_self (t : Timetable) (c p v : Nat) (h : c < t.timetable.length) :
    rowOf (setCell t c p v) c = (rowOf t c).set p v :=
  listModify_getD_self _ c _ _ h

theorem setCell_length (t : Timetable) (c p v : Nat) :
    (setCell t c p v).timetable.length = t.timetable.length :=
  listModify_length _ c _

theorem cell_pos_facts (t : Timetable) (c p : Nat) (h : cell t c p ≠ 0) :
    c < t.timetable.length ∧ p < (rowOf t c).length := by
  refine ⟨?_, lt_length_of_getD_ne _ _ h⟩
  by_contra hc
  push_neg at hc
  have hempty : rowOf t c = [] := by
    unfold rowOf
    rw [List.getD_eq_getElem?_getD, List.getElem?_eq_none (by omega)]
    rfl
  rw [cell_eq_rowOf, hempty] at h
  exact h rfl

theorem gridWF_setCell {fac : Faculty} {t : Timetable} (c p v : Nat) (h : GridWF fac t) :
    GridWF fac (setCell t c p v) := by
  constructor
  · rw [setCell_length]
    exact h.1
  · intro row hrow
    rcases mem_listModify _ _ _ _ hrow with h1 | ⟨y, hy, hxy⟩
    · exact h.2 row h1
    · rw [hxy, List.length_set]
      exact h.2 y hy

theorem rowOf_length {fac : Faculty} {t : Timetable} (hwf : GridWF fac t) {c : Nat}
    (hc : c < fac.courses) : (rowOf t c).length = fac.periods := by
  have hc2 : c < t.timetable.length := by rw [hwf.1]; exact hc
  have hr : rowOf t c = t.timetable[c] := by
    unfold rowOf
    rw [List.getD_eq_getElem?_getD, List.getElem?_eq_getElem hc2]
    rfl
  rw [hr]
  exact hwf.2 _ (List.getElem_mem hc2)

/- Lemmas about the random helpers. -/

theorem randomChoice_ok {α : Type} (l : List α) (rng : Rng) (a : α) (rng2 : Rng)
    (h : randomChoice l rng = .ok (a, rng2)) : a ∈ l := by
  unfold randomChoice at h
  split at h
  · cases h
  · simp only [Rng.nextInt, Except.ok.injEq, Prod.mk.injEq] at h
    rw [← h.1]
    exact List.get_mem l _ _

theorem scanLecture_ok (t : Timetable) (c : Nat) (i : Nat) (ps : List Nat) (p room : Nat)
    (h : scanLecture t c i ps = .ok (p, room)) : p ∈ ps ∧ cell t c p = room ∧ room ≠ 0 := by
  induction ps generalizing i with
  | nil => cases h
  | cons q qs ih =>
    unfold scanLecture at h
    by_cases hz : cell t c q == 0
    · rw [if_pos hz] at h
      rcases ih i h with ⟨h1, h2⟩
      exact ⟨List.mem_cons_of_mem _ h1, h2⟩
    · rw [if_neg hz] at h
      by_cases hi : i ≠ 0
      · rw [if_pos hi] at h
        rcases ih (i - 1) h with ⟨h1, h2⟩
        exact ⟨List.mem_cons_of_mem _ h1, h2⟩
      · rw [if_neg hi] at h
        simp only [Except.ok.injEq, Prod.mk.injEq] at h
        refine ⟨by rw [← h.1]; exact List.mem_cons_self q qs, by rw [← h.1, ← h.2], ?_⟩
        rw [← h.2]
        simpa using hz

theorem pickCPR_ok (fac : Faculty) (t : Timetable) (bad : Option Nat) (rng : Rng)
    (c p room : Nat) (rng2 : Rng)
    (h : pickCoursePeriodRoom fac t bad rng = .ok ((c, p, room), rng2)) :
    c ∈ pickCandidates fac bad ∧ p < fac.periods ∧ cell t c p = room ∧ room ≠ 0 := by
  unfold pickCoursePeriodRoom at h
  split at h
  · cases h
  · rename_i c1 rng1 heq1
    split at h
    · cases h
    · rename_i course heq2
      split at h
      · cases h
      · rename_i i1 rng3 heq3
        split at h
        · cases h
        · rename_i p1 room1 heq4
          simp only [Except.ok.injEq, Prod.mk.injEq] at h
          obtain ⟨⟨hc, hp2, hr⟩, hrng⟩ := h
          rw [← hc, ← hp2, ← hr]
          rcases scanLecture_ok t c1 i1 _ p1 room1 heq4 with ⟨hmem, hcell, hroom⟩
          exact ⟨randomChoice_ok _ _ _ _ heq1, List.mem_range.mp hmem, hcell, hroom⟩

theorem pickCandidates_lt (fac : Faculty) (bad : Option Nat) (c : Nat)
    (h : c ∈ pickCandidates fac bad) : c < fac.courses := by
  unfold pickCandidates at h
  cases bad with
  | none => exact List.mem_range.mp h
  | some b => exact List.mem_range.mp (List.mem_filter.mp h).1

theorem pickCandidates_ne (fac : Faculty) (b : Nat) (c : Nat)
    (h : c ∈ pickCandidates fac (some b)) : c ≠ b := by
  unfold pickCandidates at h
  have := (List.mem_filter.mp h).2
  simpa using this

/- Lemmas about the free-period cascade. -/

theorem foldl_filter_subset {α β : Type} (g : β → α → Bool) (l : List β) (acc : List α) (x : α)
    (h : x ∈ l.foldl (fun a b => a.filter (g b)) acc) : x ∈ acc := by
  induction l generalizing acc with
  | nil => exact h
  | cons b bs ih => exact (List.mem_filter.mp (ih _ h)).1

theorem conflictPeriodsCode_subset (fac : Faculty) (t : Timetable) (c : Nat) (fromP : Option Nat)
    (p : Nat) (h : p ∈ conflictPeriodsCode fac t c fromP) : p ∈ availablePeriods fac t c fromP :=
  foldl_filter_subset _ _ _ _ h

theorem availablePeriods_facts (fac : Faculty) (t : Timetable) (c : Nat) (fromP : Option Nat)
    (p : Nat) (h : p ∈ availablePeriods fac t c fromP) :
    p < fac.periods ∧ cell t c p = 0 ∧ ∀ q, fromP = some q → p ≠ q := by
  unfold availablePeriods at h
  have h1 := (List.mem_filter.mp h).1
  cases fromP with
  | none =>
    unfold fromPossiblePeriods samePossiblePeriods at h1
    have h2 := List.mem_filter.mp h1
    refine ⟨List.mem_range.mp h2.1, by simpa using h2.2, by intro q hq; cases hq⟩
  | some q0 =>
    unfold fromPossiblePeriods samePossiblePeriods at h1
    have h2 := List.mem_filter.mp h1
    have h3 := List.mem_filter.mp h2.1
    refine ⟨List.mem_range.mp h3.1, by simpa using h3.2, ?_⟩
    intro q hq
    cases hq
    simpa using h2.2

theorem getFreePeriod_ok (fac : Faculty) (t : Timetable) (c : Nat) (fromP : Option Nat)
    (rng : Rng) (p : Nat) (rng2 : Rng)
    (h : getFreePeriod fac t c fromP rng = .ok (p, rng2)) :
    p < fac.periods ∧ cell t c p = 0 ∧ ∀ q, fromP = some q → p ≠ q := by
  unfold getFreePeriod at h
  have hmem : p ∈ availablePeriods fac t c fromP := by
    split at h
    · exact randomChoice_ok _ _ _ _ h
    · exact conflictPeriodsCode_subset _ _ _ _ _ (randomChoice_ok _ _ _ _ h)
  exact availablePeriods_facts _ _ _ _ _ hmem

theorem getFreeRoom_ok (fac : Faculty) (t : Timetable) (c p : Nat) (fromR : Option Nat)
    (rng : Rng) (r : Nat) (rng2 : Rng)
    (h : getFreeRoom fac t c p fromR rng = .ok (r, rng2)) : r ≠ 0 := by
  unfold getFreeRoom at h
  have hmem := randomChoice_ok _ _ _ _ h
  have : r ∈ (List.range fac.rooms).map (fun x => x + 1) := by
    cases fromR with
    | none => exact hmem
    | some q => exact (List.mem_filter.mp hmem).1
  rcases List.mem_map.mp this with ⟨x, _, hx⟩
  omega

/- Row-count preservation of each mutate_* method. -/

theorem mutateChangeRoom_preserves (S : Solver) (t : Timetable) (rng : Rng)
    (t2 : Timetable) (rng2 : Rng) (hwf : GridWF S.faculty t)
    (h : mutateChangeRoom S t rng = .ok (t2, rng2)) :
    GridWF S.faculty t2 ∧ ∀ c2, occCount (rowOf t2 c2) = occCount (rowOf t c2) := by
  unfold mutateChangeRoom at h
  split at h
  · cases h
  · rename_i c p room rngA heq1
    split at h
    · cases h
    · rename_i newRoom rngB heq2
      simp only [Except.ok.injEq, Prod.mk.injEq] at h
      obtain ⟨ht2, _⟩ := h
      rcases pickCPR_ok _ _ _ _ _ _ _ _ heq1 with ⟨hcand, hp, hcell, hroom⟩
      have hnr := getFreeRoom_ok _ _ _ _ _ _ _ _ heq2
      have hcellne : cell t c p ≠ 0 := by rw [hcell]; exact hroom
      rcases cell_pos_facts t c p hcellne with ⟨hcL, hpL⟩
      subst ht2
      refine ⟨gridWF_setCell c p newRoom hwf, ?_⟩
      intro c2
      by_cases hcc : c2 = c
      · subst hcc
        rw [rowOf_setCell_self t c2 p newRoom hcL]
        exact occCount_set_keep _ p newRoom (by rw [← cell_eq_rowOf]; exact hcellne) hnr
      · rw [rowOf_setCell_ne t c p newRoom c2 hcc]

theorem mutateChangePeriod_preserves (S : Solver) (t : Timetable) (rng : Rng)
    (t2 : Timetable) (rng2 : Rng) (hwf : GridWF S.faculty t)
    (h : mutateChangePeriod S t rng = .ok (t2, rng2)) :
    GridWF S.faculty t2 ∧ ∀ c2, occCount (rowOf t2 c2) = occCount (rowOf t c2) := by
  unfold mutateChangePeriod at h
  split at h
  · cases h
  · rename_i c p room rngA heq1
    split at h
    · cases h
    · rename_i newP rngB heq2
      simp only [Except.ok.injEq, Prod.mk.injEq] at h
      obtain ⟨ht2, _⟩ := h
      rcases pickCPR_ok _ _ _ _ _ _ _ _ heq1 with ⟨hcand, hp, hcell, hroom⟩
      rcases getFreePeriod_ok _ _ _ _ _ _ _ heq2 with ⟨hnpP, hnpCell, hnpNe⟩
      have hcellne : cell t c p ≠ 0 := by rw [hcell]; exact hroom
      rcases cell_pos_facts t c p hcellne with ⟨hcL, hpL⟩
      have hcc : c < S.faculty.courses := by rw [← hwf.1]; exact hcL
      have hrowlen : (rowOf t c).length = S.faculty.periods := rowOf_length hwf hcc
      have hnpL : newP < (rowOf t c).length := by rw [hrowlen]; exact hnpP
      have hne : p ≠ newP := (hnpNe p rfl).symm
      subst ht2
      refine ⟨gridWF_setCell c p 0 (gridWF_setCell c newP (cell t c p) hwf), ?_⟩
      intro c2
      by_cases hc2 : c2 = c
      · subst hc2
        rw [rowOf_setCell_self _ c2 p 0 (by rw [setCell_length]; exact hcL),
          rowOf_setCell_self t c2 newP (cell t c2 p) hcL]
        exact occCount_fill_then_zero _ p newP _ hne hnpL
          (by rw [← cell_eq_rowOf]; exact hcellne)
          (by rw [← cell_eq_rowOf]; exact hnpCell) hcellne
      · rw [rowOf_setCell_ne _ c p 0 c2 hc2, rowOf_setCell_ne t c newP _ c2 hc2]

theorem mutateChangeBoth_preserves (S : Solver) (t : Timetable) (rng : Rng)
    (t2 : Timetable) (rng2 : Rng) (hwf : GridWF S.faculty t)
    (h : mutateChangeBoth S t rng = .ok (t2, rng2)) :
    GridWF S.faculty t2 ∧ ∀ c2, occCount (rowOf t2 c2) = occCount (rowOf t c2) := by
  unfold mutateChangeBoth at h
  split at h
  · cases h
  · rename_i c p room rngA heq1
    split at h
    · cases h
    · rename_i newP rngB heq2
      split at h
      · cases h
      · rename_i newRoom rngC heq3
        simp only [Except.ok.injEq, Prod.mk.injEq] at h
        obtain ⟨ht2, _⟩ := h
        rcases pickCPR_ok _ _ _ _ _ _ _ _ heq1 with ⟨hcand, hp, hcell, hroom⟩
        rcases getFreePeriod_ok _ _ _ _ _ _ _ heq2 with ⟨hnpP, hnpCell, hnpNe⟩
        have hnr := getFreeRoom_ok _ _ _ _ _ _ _ _ heq3
        have hcellne : cell t c p ≠ 0 := by rw [hcell]; exact hroom
        rcases cell_pos_facts t c p hcellne with ⟨hcL, hpL⟩
        have hcc : c < S.faculty.courses := by rw [← hwf.1]; exact hcL
        have hrowlen : (rowOf t c).length = S.faculty.periods := rowOf_length hwf hcc
        have hnpL : newP < (rowOf t c).length := by rw [hrowlen]; exact hnpP
        have hne : p ≠ newP := (hnpNe p rfl).symm
        subst ht2
        refine ⟨gridWF_setCell c p 0 (gridWF_setCell c newP newRoom hwf), ?_⟩
        intro c2
        by_cases hc2 : c2 = c
        · subst hc2
          rw [rowOf_setCell_self _ c2 p 0 (by rw [setCell_length]; exact hcL),
            rowOf_setCell_self t c2 newP newRoom hcL]
          exact occCount_fill_then_zero _ p newP _ hne hnpL
            (by rw [← cell_eq_rowOf]; exact hcellne)
            (by rw [← cell_eq_rowOf]; exact hnpCell) hnr
        · rw [rowOf_setCell_ne _ c p 0 c2 hc2, rowOf_setCell_ne t c newP _ c2 hc2]

theorem mutateSwapRoom_preserves (S : Solver) (t : Timetable) (rng : Rng)
    (t2 : Timetable) (rng2 : Rng) (hwf : GridWF S.faculty t)
    (h : mutateSwapRoom S t rng = .ok (t2, rng2)) :
    GridWF S.faculty t2 ∧ ∀ c2, occCount (rowOf t2 c2) = occCount (rowOf t c2) := by
  unfold mutateSwapRoom at h
  split at h
  · cases h
  · rename_i fc fp fr rngA heq1
    split at h
    · cases h
    · rename_i tc tp tr rngB heq2
      simp only [Except.ok.injEq, Prod.mk.injEq] at h
      obtain ⟨ht2, _⟩ := h
      rcases pickCPR_ok _ _ _ _ _ _ _ _ heq1 with ⟨hcand1, hp1, hcell1, hroom1⟩
      rcases pickCPR_ok _ _ _ _ _ _ _ _ heq2 with ⟨hcand2, hp2, hcell2, hroom2⟩
      have htcne : tc ≠ fc := pickCandidates_ne _ _ _ hcand2
      have hcellne1 : cell t fc fp ≠ 0 := by rw [hcell1]; exact hroom1
      have hcellne2 : cell t tc tp ≠ 0 := by rw [hcell2]; exact hroom2
      rcases cell_pos_facts t fc fp hcellne1 with ⟨hcL1, hpL1⟩
      rcases cell_pos_facts t tc tp hcellne2 with ⟨hcL2, hpL2⟩
      subst ht2
      refine ⟨gridWF_setCell tc tp fr (gridWF_setCell fc fp tr hwf), ?_⟩
      intro c2
      by_cases h1 : c2 = fc
      · subst h1
        rw [rowOf_setCell_ne _ tc tp fr c2 (fun hh => htcne hh.symm),
          rowOf_setCell_self t c2 fp tr hcL1]
        exact occCount_set_keep _ fp tr (by rw [← cell_eq_rowOf]; exact hcellne1)
          (by rw [← hcell2]; exact hcellne2)
      · by_cases h2 : c2 = tc
        · subst h2
          rw [rowOf_setCell_self _ c2 tp fr (by rw [setCell_length]; exact hcL2),
            rowOf_setCell_ne t fc fp tr c2 h1]
          exact occCount_set_keep _ tp fr (by rw [← cell_eq_rowOf]; exact hcellne2)
            (by rw [← hcell1]; exact hcellne1)
        · rw [rowOf_setCell_ne _ tc tp fr c2 h2, rowOf_setCell_ne t fc fp tr c2 h1]

theorem mutateSwapPeriod_preserves (S : Solver) (t : Timetable) (rng : Rng)
    (t2 : Timetable) (rng2 : Rng) (hwf : GridWF S.faculty t)
    (h : mutateSwapPeriod S t rng = .ok (t2, rng2)) :
    GridWF S.faculty t2 ∧ ∀ c2, occCount (rowOf t2 c2) = occCount (rowOf t c2) := by
  unfold mutateSwapPeriod at h
  split at h
  · cases h
  · rename_i fc fp fr rngA heq1
    split at h
    · cases h
    · rename_i tc tp tr rngB heq2
      split at h
      · simp only [Except.ok.injEq, Prod.mk.injEq] at h
        obtain ⟨ht2, _⟩ := h
        subst ht2
        exact ⟨hwf, fun _ => rfl⟩
      · rename_i hguard
        simp only [Bool.or_eq_true, bne_iff_ne, ne_eq, not_or, Decidable.not_not] at hguard
        obtain ⟨hftp, htfp⟩ := hguard
        simp only [Except.ok.injEq, Prod.mk.injEq] at h
        obtain ⟨ht2, _⟩ := h
        rcases pickCPR_ok _ _ _ _ _ _ _ _ heq1 with ⟨hcand1, hp1, hcell1, hroom1⟩
        rcases pickCPR_ok _ _ _ _ _ _ _ _ heq2 with ⟨hcand2, hp2, hcell2, hroom2⟩
        have htcne : tc ≠ fc := pickCandidates_ne _ _ _ hcand2
        have hcellne1 : cell t fc fp ≠ 0 := by rw [hcell1]; exact hroom1
        have hcellne2 : cell t tc tp ≠ 0 := by rw [hcell2]; exact hroom2
        rcases cell_pos_facts t fc fp hcellne1 with ⟨hcL1, hpL1⟩
        rcases cell_pos_facts t tc tp hcellne2 with ⟨hcL2, hpL2⟩
        have hfcc : fc < S.faculty.courses := by rw [← hwf.1]; exact hcL1
        have htcc : tc < S.faculty.courses := by rw [← hwf.1]; exact hcL2
        have hfpne : fp ≠ tp := by
          intro hh
          rw [hh] at hcellne1
          exact hcellne1 hftp
        subst ht2
        refine ⟨gridWF_setCell tc fp tr (gridWF_setCell tc tp 0
          (gridWF_setCell fc tp fr (gridWF_setCell fc fp 0 hwf))), ?_⟩
        intro c2
        by_cases h1 : c2 = fc
        · subst h1
          rw [rowOf_setCell_ne _ tc fp tr c2 (fun hh => htcne hh.symm),
            rowOf_setCell_ne _ tc tp 0 c2 (fun hh => htcne hh.symm),
            rowOf_setCell_self _ c2 tp fr (by rw [setCell_length]; exact hcL1),
            rowOf_setCell_self t c2 fp 0 hcL1]
          exact occCount_zero_then_fill _ fp tp fr hfpne
            (by rw [rowOf_length hwf hfcc]; exact hp2)
            (by rw [← cell_eq_rowOf]; exact hcellne1)
            (by rw [← cell_eq_rowOf]; exact hftp) hroom1
        · by_cases h2 : c2 = tc
          · subst h2
            rw [rowOf_setCell_self _ c2 fp tr
                (by rw [setCell_length, setCell_length, setCell_length]; exact hcL2),
              rowOf_setCell_self _ c2 tp 0
                (by rw [setCell_length, setCell_length]; exact hcL2),
              rowOf_setCell_ne _ fc tp fr c2 h1, rowOf_setCell_ne t fc fp 0 c2 h1]
            exact occCount_zero_then_fill _ tp fp tr (fun hh => hfpne hh.symm)
              (by rw [rowOf_length hwf htcc]; exact hp1)
              (by rw [← cell_eq_rowOf]; exact hcellne2)
              (by rw [← cell_eq_rowOf]; exact htfp) hroom2
          · rw [rowOf_setCell_ne _ tc fp tr c2 h2, rowOf_setCell_ne _ tc tp 0 c2 h2,
              rowOf_setCell_ne _ fc tp fr c2 h1, rowOf_setCell_ne t fc fp 0 c2 h1]

theorem mutateSwapBoth_preserves (S : Solver) (t : Timetable) (rng : Rng)
    (t2 : Timetable) (rng2 : Rng) (hwf : GridWF S.faculty t)
    (h : mutateSwapBoth S t rng = .ok (t2, rng2)) :
    GridWF S.faculty t2 ∧ ∀ c2, occCount (rowOf t2 c2) = occCount (rowOf t c2) := by
  unfold mutateSwapBoth at h
  split at h
  · cases h
  · rename_i fc fp fr rngA heq1
    split at h
    · cases h
    · rename_i tc tp tr rngB heq2
      split at h
      · simp only [Except.ok.injEq, Prod.mk.injEq] at h
        obtain ⟨ht2, _⟩ := h
        subst ht2
        exact ⟨hwf, fun _ => rfl⟩
      · rename_i hguard
        simp only [Bool.or_eq_true, bne_iff_ne, ne_eq, not_or, Decidable.not_not] at hguard
        obtain ⟨hftp, htfp⟩ := hguard
        simp only [Except.ok.injEq, Prod.mk.injEq] at h
        obtain ⟨ht2, _⟩ := h
        rcases pickCPR_ok _ _ _ _ _ _ _ _ heq1 with ⟨hcand1, hp1, hcell1, hroom1⟩
        rcases pickCPR_ok _ _ _ _ _ _ _ _ heq2 with ⟨hcand2, hp2, hcell2, hroom2⟩
        have htcne : tc ≠ fc := pickCandidates_ne _ _ _ hcand2
        have hcellne1 : cell t fc fp ≠ 0 := by rw [hcell1]; exact hroom1
        have hcellne2 : cell t tc tp ≠ 0 := by rw [hcell2]; exact hroom2
        rcases cell_pos_facts t fc fp hcellne1 with ⟨hcL1, hpL1⟩
        rcases cell_pos_facts t tc tp hcellne2 with ⟨hcL2, hpL2⟩
        have hfcc : fc < S.faculty.courses := by rw [← hwf.1]; exact hcL1
        have htcc : tc < S.faculty.courses := by rw [← hwf.1]; exact hcL2
        have hfpne : fp ≠ tp := by
          intro hh
          rw [hh] at hcellne1
          exact hcellne1 hftp
        subst ht2
        refine ⟨gridWF_setCell tc fp fr (gridWF_setCell tc tp 0
          (gridWF_setCell fc tp tr (gridWF_setCell fc fp 0 hwf))), ?_⟩
        intro c2
        by_cases h1 : c2 = fc
        · subst h1
          rw [rowOf_setCell_ne _ tc fp fr c2 (fun hh => htcne hh.symm),
            rowOf_setCell_ne _ tc tp 0 c2 (fun hh => htcne hh.symm),
            rowOf_setCell_self _ c2 tp tr (by rw [setCell_length]; exact hcL1),
            rowOf_setCell_self t c2 fp 0 hcL1]
          exact occCount_zero_then_fill _ fp tp tr hfpne
            (by rw [rowOf_length hwf hfcc]; exact hp2)
            (by rw [← cell_eq_rowOf]; exact hcellne1)
            (by rw [← cell_eq_rowOf]; exact hftp) hroom2
        · by_cases h2 : c2 = tc
          · subst h2
            rw [rowOf_setCell_self _ c2 fp fr
                (by rw [setCell_length, setCell_length, setCell_length]; exact hcL2),
              rowOf_setCell_self _ c2 tp 0
                (by rw [setCell_length, setCell_length]; exact hcL2),
              rowOf_setCell_ne _ fc tp tr c2 h1, rowOf_setCell_ne t fc fp 0 c2 h1]
            exact occCount_zero_then_fill _ tp fp fr (fun hh => hfpne hh.symm)
              (by rw [rowOf_length hwf htcc]; exact hp1)
              (by rw [← cell_eq_rowOf]; exact hcellne2)
              (by rw [← cell_eq_rowOf]; exact htfp) hroom1
          · rw [rowOf_setCell_ne _ tc fp fr c2 h2, rowOf_setCell_ne _ tc tp 0 c2 h2,
              rowOf_setCell_ne _ fc tp tr c2 h1, rowOf_setCell_ne t fc fp 0 c2 h1]

theorem applyMutOp_preserves (S : Solver) (op : MutOp) (t : Timetable) (rng : Rng)
    (t2 : Timetable) (rng2 : Rng) (hwf : GridWF S.faculty t)
    (h : applyMutOp S op t rng = .ok (t2, rng2)) :
    GridWF S.faculty t2 ∧ ∀ c2, occCount (rowOf t2 c2) = occCount (rowOf t c2) := by
  cases op with
  | change_room => exact mutateChangeRoom_preserves S t rng t2 rng2 hwf h
  | change_period => exact mutateChangePeriod_preserves S t rng t2 rng2 hwf h
  | change_both => exact mutateChangeBoth_preserves S t rng t2 rng2 hwf h
  | swap_room => exact mutateSwapRoom_preserves S t rng t2 rng2 hwf h
  | swap_period => exact mutateSwapPeriod_preserves S t rng t2 rng2 hwf h
  | swap_both => exact mutateSwapBoth_preserves S t rng t2 rng2 hwf h

theorem iterateLoop_preserves (S : Solver) (k : Nat) (t : Timetable) (rng : Rng)
    (t2 : Timetable) (rng2 : Rng) (hwf : GridWF S.faculty t)
    (h : iterateLoop S k t rng = .ok (t2, rng2)) :
    GridWF S.faculty t2 ∧ ∀ c2, occCount (rowOf t2 c2) = occCount (rowOf t c2) := by
  induction k generalizing t rng with
  | zero =>
    unfold iterateLoop at h
    simp only [Except.ok.injEq, Prod.mk.injEq] at h
    obtain ⟨ht2, _⟩ := h
    subst ht2
    exact ⟨hwf, fun _ => rfl⟩
  | succ n ih =>
    unfold iterateLoop at h
    split at h
    · cases h
    · rename_i m rngA heq1
      split at h
      · cases h
      · rename_i op heq2
        split at h
        · cases h
        · rename_i tB rngB heq3
          rcases applyMutOp_preserves S op t rngA tB rngB hwf heq3 with ⟨hwfB, hrows⟩
          rcases ih tB rngB hwfB h with ⟨hwf2, hrows2⟩
          exact ⟨hwf2, fun c2 => (hrows2 c2).trans (hrows c2)⟩

/- The refresh passes never touch the grid. -/

theorem foldl_timetable_eq {β : Type} (f : Timetable → β → Timetable)
    (hf : ∀ acc b, (f acc b).timetable = acc.timetable) (l : List β) (t : Timetable) :
    (l.foldl f t).timetable = t.timetable := by
  induction l generalizing t with
  | nil => rfl
  | cons b bs ih => rw [List.foldl_cons, ih, hf]

theorem urdLoop1_timetable (t : Timetable) : (urdLoop1 t).timetable = t.timetable := by
  unfold urdLoop1
  apply foldl_timetable_eq
  intro acc c
  apply foldl_timetable_eq
  intro acc2 p
  dsimp only
  split <;> rfl

theorem urdLoop2_timetable (t : Timetable) : (urdLoop2 t).timetable = t.timetable := by
  unfold urdLoop2
  apply foldl_timetable_eq
  intro acc cic
  apply foldl_timetable_eq
  intro acc2 gig
  dsimp only
  split
  · apply foldl_timetable_eq
    intro acc3 p
    dsimp only
    split <;> rfl
  · rfl

theorem urdLoop3_timetable (t : Timetable) : (urdLoop3 t).timetable = t.timetable := by
  unfold urdLoop3
  apply foldl_timetable_eq
  intro acc c
  apply foldl_timetable_eq
  intro acc2 d
  dsimp only
  have hinner : ∀ (l : List Nat) (a : Timetable),
      (l.foldl (fun acc3 q =>
        if cell acc3 c (d * t.faculty.periodsPerDay + q) == 0 then acc3
        else { acc3 with courseDailyLectures := bumpCell acc3.courseDailyLectures c d }) a).timetable
      = a.timetable := by
    intro l a
    apply foldl_timetable_eq
    intro acc3 q
    dsimp only
    split <;> rfl
  split <;> exact hinner _ _

theorem updateRedundantData_timetable (t : Timetable) :
    (updateRedundantData t).timetable = t.timetable := by
  unfold updateRedundantData
  rw [urdLoop3_timetable, urdLoop2_timetable, urdLoop1_timetable]

theorem clone_timetable (t : Timetable) : t.clone.timetable = t.timetable := rfl

theorem rowOf_eq_of_timetable_eq {t1 t2 : Timetable} (h : t1.timetable = t2.timetable)
    (c : Nat) : rowOf t1 c = rowOf t2 c := by
  unfold rowOf
  rw [h]

theorem gridWF_of_timetable_eq {fac : Faculty} {t1 t2 : Timetable}
    (h : t1.timetable = t2.timetable) (hwf : GridWF fac t2) : GridWF fac t1 := by
  unfold GridWF at hwf ⊢
  rw [h]
  exact hwf

theorem map_occ_eq (l1 l2 : List (List Nat)) (hlen : l1.length = l2.length)
    (h : ∀ i, occCount (l1.getD i []) = occCount (l2.getD i [])) :
    l1.map occCount = l2.map occCount := by
  induction l1 generalizing l2 with
  | nil =>
    cases l2 with
    | nil => rfl
    | cons b bs => simp at hlen
  | cons a as ih =>
    cases l2 with
    | nil => simp at hlen
    | cons b bs =>
      have h0 := h 0
      simp only [List.getD_cons_zero] at h0
      have htail : ∀ i, occCount (as.getD i []) = occCount (bs.getD i []) := by
        intro i
        have := h (i + 1)
        simpa [List.getD_cons_succ] using this
      simp only [List.map_cons, h0]
      rw [ih bs (by simpa using hlen) htail]

theorem totalPlaced_eq_of_rows {t1 t2 : Timetable}
    (hlen : t1.timetable.length = t2.timetable.length)
    (h : ∀ c, occCount (rowOf t1 c) = occCount (rowOf t2 c)) :
    totalPlaced t1 = totalPlaced t2 := by
  unfold totalPlaced
  rw [map_occ_eq _ _ hlen (fun i => h i)]

/-- C10: every one of the six mutation operators, whenever it returns
without raising, preserves for each course the number of occupied cells
of that course's grid row; consequently Solver.iterate, whenever it
returns without raising, never changes the total number of placed
lectures. -/
theorem C10_mutations_preserve_lectures (S : Solver) :
    (∀ (op : MutOp) (t : Timetable) (rng : Rng) (t2 : Timetable) (rng2 : Rng),
      GridWF S.faculty t → applyMutOp S op t rng = .ok (t2, rng2) →
      ∀ c, occCount (rowOf t2 c) = occCount (rowOf t c)) ∧
    (∀ (t : Timetable) (rng : Rng) (t2 : Timetable) (rng2 : Rng),
      GridWF S.faculty t → S.iterate t rng = .ok (t2, rng2) →
      totalPlaced t2 = totalPlaced t) := by
  constructor
  · intro op t rng t2 rng2 hwf h
    exact (applyMutOp_preserves S op t rng t2 rng2 hwf h).2
  · intro t rng t2 rng2 hwf h
    unfold Solver.iterate at h
    split at h
    · cases h
    · rename_i cnt rngA heq1
      split at h
      · cases h
      · rename_i tB rngB heq2
        simp only [Except.ok.injEq, Prod.mk.injEq] at h
        obtain ⟨ht2, _⟩ := h
        have hwfClone : GridWF S.faculty t.clone :=
          gridWF_of_timetable_eq (clone_timetable t) hwf
        rcases iterateLoop_preserves S cnt t.clone rngA tB rngB hwfClone heq2 with ⟨hwfB, hrows⟩
        have hlenB : tB.timetable.length = t.timetable.length := by
          rw [hwfB.1, hwf.1]
        have hrowsT : ∀ c, occCount (rowOf tB c) = occCount (rowOf t c) := by
          intro c
          rw [hrows c, rowOf_eq_of_timetable_eq (clone_timetable t) c]
        have h1 : totalPlaced t2 = totalPlaced tB := by
          rw [← ht2]
          apply totalPlaced_eq_of_rows
          · rw [updateRedundantData_timetable]
          · intro c
            rw [rowOf_eq_of_timetable_eq (updateRedundantData_timetable tB) c]
        rw [h1]
        exact totalPlaced_eq_of_rows hlenB hrowsT

/-- A one-lecture timetable over facC1, used to exercise iterate. -/
def tC10 : Timetable := { Timetable.fromFaculty facC1 with timetable := [[1]] }

/-- Witness for C10: a concrete iterate run (a change_room mutation) that
returns without raising and keeps the total number of placed lectures. -/
theorem C10_witness :
    ∃ t2 rng2, Solver.iterate sC1 tC10 rngAccepting = .ok (t2, rng2) ∧
      totalPlaced t2 = totalPlaced tC10 :=
  ⟨_, _, rfl,
    (C10_mutations_preserve_lectures sC1).2 tC10 rngAccepting _ _ (by decide) rfl⟩

/- Lemmas about Python min over (cost, timetable) pairs. -/

theorem foldlMin_facts (xs : List (Nat × Timetable)) (b : Nat × Timetable) :
    ((xs.foldl (fun acc y => if y.1 < acc.1 then y else acc) b) = b ∨
      (xs.foldl (fun acc y => if y.1 < acc.1 then y else acc) b) ∈ xs) ∧
    (xs.foldl (fun acc y => if y.1 < acc.1 then y else acc) b).1 ≤ b.1 ∧
    ∀ y ∈ xs, (xs.foldl (fun acc y => if y.1 < acc.1 then y else acc) b).1 ≤ y.1 := by
  induction xs generalizing b with
  | nil =>
    refine ⟨Or.inl rfl, Nat.le_refl _, ?_⟩
    intro y hy
    cases hy
  | cons x xs ih =>
    simp only [List.foldl_cons]
    by_cases hx : x.1 < b.1
    · rw [if_pos hx]
      rcases ih x with ⟨hmem, hle, hall⟩
      refine ⟨?_, by omega, ?_⟩
      · rcases hmem with he | hm
        · exact Or.inr (by rw [he]; exact List.mem_cons_self x xs)
        · exact Or.inr (List.mem_cons_of_mem _ hm)
      · intro y hy
        rcases List.mem_cons.mp hy with h1 | h1
        · rw [h1]
          exact hle
        · exact hall y h1
    · rw [if_neg hx]
      rcases ih b with ⟨hmem, hle, hall⟩
      refine ⟨?_, hle, ?_⟩
      · rcases hmem with he | hm
        · exact Or.inl he
        · exact Or.inr (List.mem_cons_of_mem _ hm)
      · intro y hy
        rcases List.mem_cons.mp hy with h1 | h1
        · rw [h1]
          omega
        · exact hall y h1

theorem minByCost_ok (l : List (Nat × Timetable)) (best : Nat × Timetable)
    (h : minByCost l = .ok best) : best ∈ l ∧ ∀ y ∈ l, best.1 ≤ y.1 := by
  cases l with
  | nil => cases h
  | cons x xs =>
    unfold minByCost at h
    simp only [Except.ok.injEq] at h
    rcases foldlMin_facts xs x with ⟨hmem, hle, hall⟩
    rw [← h]
    constructor
    · rcases hmem with he | hm
      · rw [he]
        exact List.mem_cons_self x xs
      · exact List.mem_cons_of_mem _ hm
    · intro y hy
      rcases List.mem_cons.mp hy with h1 | h1
      · rw [h1]
        exact hle
      · exact hall y h1

/-- C1 amended: do_the_thing returns the lowest-cost pair of the final
round of shot results only (the last shot_timetables output, or the
initial shots round if no slice round ran); results of earlier rounds are
discarded and may be strictly better, as C1_counterexample shows. -/
theorem C1_amended (S : Solver) (initTT : Option Timetable) (r : Rng)
    (best : Nat × Timetable) (fin : List (Nat × Timetable))
    (rounds : List (List (Nat × Timetable)))
    (h : doTheThingFull S initTT r = .ok (best, fin, rounds)) :
    best ∈ fin ∧ ∀ y ∈ fin, best.1 ≤ y.1 := by
  unfold doTheThingFull at h
  split at h
  · cases h
  · rename_i tts rngA heq1
    split at h
    · cases h
    · rename_i fin0 trace rngB heq2
      split at h
      · cases h
      · rename_i best0 heq3
        simp only [Except.ok.injEq, Prod.mk.injEq] at h
        obtain ⟨hb, hf, _⟩ := h
        rw [← hb, ← hf]
        exact minByCost_ok fin0 best0 heq3

/-- Witness for C1 amended: the concrete sC1 run, whose returned pair is
the minimum of its final round. -/
theorem C1_amended_witness :
    ∃ best fin rounds, doTheThingFull sC1 none rngMaster = .ok (best, fin, rounds) ∧
      best ∈ fin ∧ ∀ y ∈ fin, best.1 ≤ y.1 :=
  ⟨_, _, _, rfl, C1_amended sC1 none rngMaster _ _ _ rfl⟩

/- Lemmas for the raising behaviour of the mutation helpers. -/

theorem foldl_filter_nil {α β : Type} (g : β → α → Bool) (l : List β) :
    l.foldl (fun a b => a.filter (g b)) [] = [] := by
  induction l with
  | nil => rfl
  | cons b bs ih =>
    simp only [List.foldl_cons, List.filter_nil]
    exact ih

theorem getD_zero_of_occCount_zero (row : List Nat) (h : occCount row = 0) (p : Nat) :
    row.getD p 0 = 0 := by
  by_contra hne
  have := occCount_pos row p hne
  omega

theorem scanLecture_allZero (t : Timetable) (c : Nat) (hz : ∀ p, cell t c p = 0)
    (i : Nat) (ps : List Nat) : scanLecture t c i ps = .error .valueError := by
  induction ps generalizing i with
  | nil => rfl
  | cons q qs ih =>
    unfold scanLecture
    rw [if_pos (by simp [hz q])]
    exact ih i

/-- C7 amended: the degenerate mutation cases raise instead of no-opping:
if the course drawn by pick_course_period_room has no occupied cell the
pick raises (ValueError from the scan, or ValueError from randrange when
the course needs no lectures), and if stage 3 of the free-period cascade
is empty get_free_period raises IndexError (random.choice on an empty
tuple); the exception propagates out of the mutation operator. -/
theorem C7_amended :
    (∀ (fac : Faculty) (t : Timetable) (bad : Option Nat) (rng : Rng) (c : Nat) (rng2 : Rng),
      randomChoice (pickCandidates fac bad) rng = .ok (c, rng2) →
      occCount (rowOf t c) = 0 →
      ∃ e, pickCoursePeriodRoom fac t bad rng = .error e) ∧
    (∀ (fac : Faculty) (t : Timetable) (c : Nat) (fromP : Option Nat) (rng : Rng),
      availablePeriods fac t c fromP = [] →
      getFreePeriod fac t c fromP rng = .error .indexError) := by
  constructor
  · intro fac t bad rng c rng2 hchoice hempty
    have hz : ∀ p, cell t c p = 0 := by
      intro p
      rw [cell_eq_rowOf]
      exact getD_zero_of_occCount_zero _ hempty p
    cases hres : pickCoursePeriodRoom fac t bad rng with
    | error e => exact ⟨e, rfl⟩
    | ok v =>
      exfalso
      unfold pickCoursePeriodRoom at hres
      split at hres
      · cases hres
      · rename_i c1 rng1 heq1
        split at hres
        · cases hres
        · rename_i course heq2
          split at hres
          · cases hres
          · rename_i i1 rng3 heq3
            split at hres
            · cases hres
            · rename_i p1 room1 heq4
              rw [hchoice] at heq1
              simp only [Except.ok.injEq, Prod.mk.injEq] at heq1
              rw [← heq1.1, scanLecture_allZero t c hz i1 (List.range fac.periods)] at heq4
              cases heq4
  · intro fac t c fromP rng hemptyAvail
    have hconf : conflictPeriodsCode fac t c fromP = [] := by
      unfold conflictPeriodsCode
      rw [hemptyAvail]
      exact foldl_filter_nil _ _
    unfold getFreePeriod
    rw [hconf, hemptyAvail]
    rfl

/-- Witness for C7 amended: the concrete raising runs of
C7_counterexample, obtained through the amended theorem. -/
theorem C7_amended_witness :
    (∃ e, pickCoursePeriodRoom facC7 tC7empty none rngAccepting = .error e) ∧
    getFreePeriod facC7 tC7full 0 none rngAccepting = .error .indexError := by
  constructor
  · exact C7_amended.1 facC7 tC7empty none rngAccepting 0 _ rfl (by decide)
  · exact C7_amended.2 facC7 tC7full 0 none rngAccepting (by decide)
